import Mathlib

/-!
Verification development for the `parquet_comparison_job` repository.

The core under study is `compare_data` in `parquet_compare_ordered_table.py`
together with its helpers (`series_nonequal_index`, `calculate_pct_mismatch`)
and the result dataclasses (`ColumnResult`, `CompareResult`).

Shallow embedding conventions:
* pandas cell values are modelled by the inductive `Value` (null / int /
  float / bool / string / embedded numpy array).  Floats are modelled as
  rationals; no claim under study depends on IEEE rounding, NaN payloads or
  infinities.
* a DataFrame (`Df`) is an explicit index (one key tuple per row; the default
  RangeIndex is the singleton tuple `[intV i]`) plus a list of named, dtyped
  columns.
* fallible steps of the Python code (AttributeError from the hard-coded
  `df.pcodes_*` attribute accesses, KeyError from `ser[0]` on an empty
  series, numpy's AxisError from `np.sort` on a 0-d input, ValueError from
  `np.vectorize` on size-0 input and from assigning a wrong-length array to
  a DataFrame column) are modelled with `Except Err`.
* Python `set` iteration order is not deterministic across builds; wherever
  the source materialises a set into a list without sorting it
  (`common_ids`, the two operand lists inside `series_nonequal_index`) the
  model uses first-appearance order.  Every claim under study is insensitive
  to this choice (counts, membership and sorted outputs only).
-/

namespace PCT

/-- pandas/numpy declared element types (`dtype`) that the comparator
inspects: int64, float64, bool, string and generic `object`. -/
inductive Dtype where
  | int
  | float
  | bool
  | str
  | obj
deriving DecidableEq, Repr

/-- Cell values: missing (NaN/None), integers, floats (as rationals),
booleans, strings, and embedded numpy arrays. -/
inductive Value where
  | null
  | intV (n : Int)
  | floatV (q : Rat)
  | boolV (b : Bool)
  | strV (s : String)
  | arrV (xs : List Value)

mutual

/-- Structural boolean equality on values (used to build decidable
equality, which the derive handler does not produce for this nested
inductive). -/
def Value.beq : Value → Value → Bool
  | .null, .null => true
  | .intV a, .intV b => a == b
  | .floatV a, .floatV b => a == b
  | .boolV a, .boolV b => a == b
  | .strV a, .strV b => a == b
  | .arrV a, .arrV b => Value.beqList a b
  | _, _ => false

/-- Structural boolean equality on lists of values. -/
def Value.beqList : List Value → List Value → Bool
  | [], [] => true
  | x :: xs, y :: ys => Value.beq x y && Value.beqList xs ys
  | _, _ => false

end

mutual

theorem Value.beq_iff : ∀ (a b : Value), Value.beq a b = true ↔ a = b
  | .null, b => by cases b <;> simp [Value.beq]
  | .intV _, b => by cases b <;> simp [Value.beq]
  | .floatV _, b => by cases b <;> simp [Value.beq]
  | .boolV _, b => by cases b <;> simp [Value.beq]
  | .strV _, b => by cases b <;> simp [Value.beq]
  | .arrV xs, .null => by simp [Value.beq]
  | .arrV xs, .intV _ => by simp [Value.beq]
  | .arrV xs, .floatV _ => by simp [Value.beq]
  | .arrV xs, .boolV _ => by simp [Value.beq]
  | .arrV xs, .strV _ => by simp [Value.beq]
  | .arrV xs, .arrV ys => by
      simpa [Value.beq] using Value.beqList_iff xs ys

theorem Value.beqList_iff : ∀ (a b : List Value), Value.beqList a b = true ↔ a = b
  | [], [] => by simp [Value.beqList]
  | [], _ :: _ => by simp [Value.beqList]
  | _ :: _, [] => by simp [Value.beqList]
  | x :: xs, y :: ys => by
      simp [Value.beqList, Value.beq_iff x y, Value.beqList_iff xs ys]

end

instance : DecidableEq Value := fun a b => decidable_of_iff _ (Value.beq_iff a b)

/-- Errors the Python code can raise on the paths the claims exercise. -/
inductive Err where
  | attrError (col : String)
  | keyError
  | axisError
  | valueError
deriving DecidableEq, Repr

/-- Numeric view of a scalar cell (numpy compares int/float/bool cross-type
by numeric value: `np.array_equal(10, 10.0)` is true, `True == 1`). -/
def Value.toNum? : Value → Option Rat
  | .intV n => some (n : Rat)
  | .floatV q => some q
  | .boolV b => some (if b then 1 else 0)
  | _ => none

/-- Constructor rank, used to order values of different kinds when the code
sorts mixed data. -/
def Value.rank : Value → Nat
  | .null => 0
  | .boolV _ => 1
  | .intV _ => 2
  | .floatV _ => 3
  | .strV _ => 4
  | .arrV _ => 5

mutual

/-- Semantics of `np.array_equal` as used by `series_nonequal_index`:
scalars of numeric kind compare by numeric value, strings structurally,
arrays elementwise with a shape check.  Two nulls compare equal (the
function only ever sees nulls nested inside object cells). -/
def npEq : Value → Value → Bool
  | .arrV xs, .arrV ys => npEqList xs ys
  | x, y =>
    match x.toNum?, y.toNum? with
    | some a, some b => a = b
    | _, _ =>
      match x, y with
      | .null, .null => true
      | .strV a, .strV b => a = b
      | _, _ => false

/-- Elementwise `np.array_equal` on array contents (false on shape
mismatch). -/
def npEqList : List Value → List Value → Bool
  | [], [] => true
  | x :: xs, y :: ys => npEq x y && npEqList xs ys
  | _, _ => false

end

/-- Strict comparison used to model `np.sort` (on array cells) and
`DataFrame.sort_values` (on key columns).  Scalars of the same kind compare
naturally, numerics cross-kind by value, different kinds by rank.  Two
arrays are never comparable (numpy raises on such ambiguous comparisons;
no claim sorts arrays of arrays). -/
def valLt : Value → Value → Bool
  | .intV a, .intV b => decide (a < b)
  | .floatV a, .floatV b => decide (a < b)
  | .intV a, .floatV b => decide ((a : Rat) < b)
  | .floatV a, .intV b => decide (a < (b : Rat))
  | .strV a, .strV b => decide (a < b)
  | .boolV a, .boolV b => !a && b
  | .arrV _, .arrV _ => false
  | x, y => decide (x.rank < y.rank)

/-- Lexicographic order on key tuples (composite keys). -/
def valListLt : List Value → List Value → Bool
  | [], [] => false
  | [], _ :: _ => true
  | _ :: _, [] => false
  | a :: as, b :: bs => valLt a b || (!valLt b a && valListLt as bs)

/-- Stable insertion used by `sortBy`: `x` is placed before the first
element not strictly below it. -/
def insertBy (lt : α → α → Bool) (x : α) : List α → List α
  | [] => [x]
  | y :: ys => if lt y x then y :: insertBy lt x ys else x :: y :: ys

/-- Stable ascending sort (models `np.sort` and `sort_values`; stability
fixes which row survives deduplication deterministically). -/
def sortBy (lt : α → α → Bool) (l : List α) : List α :=
  l.foldr (insertBy lt) []

/-- `np.sort` on the contents of an array cell. -/
def sortVals (l : List Value) : List Value :=
  sortBy valLt l

/-- `pd.isnull` on a single cell (an embedded array cell is not null). -/
def Value.isNull : Value → Bool
  | .null => true
  | _ => false

/-- One named, dtyped column of a DataFrame. -/
structure Column where
  name : String
  dtype : Dtype
  values : List Value
deriving DecidableEq

/-- A pandas DataFrame: an index (one key tuple per row; the default
RangeIndex is modelled as the one-element tuple `[intV i]`) and a list of
columns. -/
structure Df where
  index : List (List Value)
  cols : List Column
deriving DecidableEq

/-- Column labels, in order. -/
def Df.colNames (df : Df) : List String :=
  df.cols.map Column.name

/-- Column lookup by label. -/
def Df.getCol? (df : Df) (c : String) : Option Column :=
  df.cols.find? (fun k => k.name == c)

/-- `len(df)`. -/
def Df.nrows (df : Df) : Nat :=
  df.index.length

/-- A freshly loaded DataFrame: default RangeIndex `0..n-1`. -/
def Df.ofCols (cols : List Column) : Df :=
  { index := (List.range (match cols with | [] => 0 | c :: _ => c.values.length)).map
      (fun i => [Value.intV i]),
    cols := cols }

/-- Take the rows at the given positions, in the given order (the common
building block for `sort_values`, deduplication and `.loc`). -/
def Df.selectRows (df : Df) (pos : List Nat) : Df :=
  { index := pos.map (fun i => df.index.getD i []),
    cols := df.cols.map (fun c => { c with values := pos.map (fun i => c.values.getD i Value.null) }) }

/-- Rectangularity: every column has exactly one value per index entry
(always true of a loaded parquet/csv table). -/
def Df.wf (df : Df) : Prop :=
  ∀ c ∈ df.cols, c.values.length = df.index.length

instance (df : Df) : Decidable df.wf := by
  unfold Df.wf; infer_instance

/-- The table with column `c`'s first cell replaced by the sorted copy of
the array `xs` it held (tail `vs` untouched). -/
def sortHead (df : Df) (c : String) (xs vs : List Value) : Df :=
  let newCols := df.cols.map
    (fun k => if k.name = c then { k with values := Value.arrV (sortVals xs) :: vs } else k)
  { df with cols := newCols }

/-- One line of the pre-normalization block
(`df.<c>[0] = np.sort(df.<c>[0])`): attribute access raises AttributeError
when the column is absent, `ser[0]` raises KeyError on an empty series
(zero rows), `np.sort` raises an axis error on a 0-d (scalar) input;
otherwise the array held in the first cell is replaced by its sorted copy
and everything else is unchanged. -/
def sortCell0 (df : Df) (c : String) : Except Err Df :=
  match df.getCol? c with
  | none => Except.error (Err.attrError c)
  | some col =>
    match col.values with
    | [] => Except.error Err.keyError
    | Value.arrV xs :: vs => Except.ok (sortHead df c xs vs)
    | _ :: _ => Except.error Err.axisError

/-- The fixed set of array-valued columns the source pre-normalizes. -/
def pcodesCols : List String :=
  ["pcodes_power_poles", "pcodes_buildings", "pcodes_power_lines"]

/-- Lines 108-115 of the source: sort the first cell of each of the three
hard-coded pcodes columns, alternating between the two tables in source
order. -/
def preNormalize (df1 df2 : Df) : Except Err (Df × Df) := do
  let a1 ← sortCell0 df1 "pcodes_power_poles"
  let a2 ← sortCell0 df2 "pcodes_power_poles"
  let b1 ← sortCell0 a1 "pcodes_buildings"
  let b2 ← sortCell0 a2 "pcodes_buildings"
  let c1 ← sortCell0 b1 "pcodes_power_lines"
  let c2 ← sortCell0 b2 "pcodes_power_lines"
  Except.ok (c1, c2)

/-- `set(a).issubset(b)` on column-label lists. -/
def subsetOf (a b : List String) : Bool :=
  a.all (fun c => b.contains c)

/-- Lines 117-121: drop the ignore columns from a side, but only when the
whole ignore set is a subset of that side's columns; `if ignore_cols:` is
Python truthiness, so `None` and the empty list both skip the block. -/
def applyIgnore (ig : Option (List String)) (df : Df) : Df :=
  match ig with
  | none => df
  | some [] => df
  | some l =>
      if subsetOf l df.colNames then
        { df with cols := df.cols.filter (fun c => !(l.contains c.name)) }
      else df

/-- `set(df1.columns) == set(df2.columns)`. -/
def sameColSet (d1 d2 : Df) : Bool :=
  subsetOf d1.colNames d2.colNames && subsetOf d2.colNames d1.colNames

/-- `sorted(set(a) - set(b))` on column labels. -/
def sortedStrDiff (a b : List String) : List String :=
  sortBy (fun x y => decide (x < y)) ((a.filter (fun c => !(b.contains c))).dedup)

/-- The key tuple of row `i` for the given key columns. -/
def keyOfRow (df : Df) (kcols : List String) (i : Nat) : List Value :=
  kcols.map (fun c => match df.getCol? c with
    | some col => col.values.getD i Value.null
    | none => Value.null)

def Df.hasCols (df : Df) (cs : List String) : Bool :=
  cs.all (fun c => df.colNames.contains c)

/-- Lines 131-138: `sort_values(index_cols)` followed by
`set_index(index_cols)`; when a key column is missing the KeyError is
caught and the side is left unkeyed (positional index). `set_index`
removes the key columns from the data columns. -/
def applyIndexing (kcols : List String) (df : Df) : Df :=
  if df.hasCols kcols then
    let keyed := (List.range df.nrows).map (fun i => (keyOfRow df kcols i, i))
    let sorted := sortBy (fun a b => valListLt a.1 b.1) keyed
    let df' := df.selectRows (sorted.map Prod.snd)
    { index := sorted.map Prod.fst,
      cols := df'.cols.filter (fun c => !(kcols.contains c.name)) }
  else df

/-- Number of rows carrying a given key. -/
def countKey (idx : List (List Value)) (k : List Value) : Nat :=
  (idx.filter (fun j => decide (j = k))).length

/-- `df.index.duplicated(keep=False).any()`. -/
def hasDups (idx : List (List Value)) : Bool :=
  idx.any (fun k => decide (2 ≤ countKey idx k))

/-- `df.index[dup_mask].value_counts()` restricted to duplicated keys: each
duplicated key with its multiplicity (listed in first-appearance key order;
the claims only inspect this table as a key-multiset). -/
def dupCounts (idx : List (List Value)) : List (List Value × Nat) :=
  idx.dedup.filterMap (fun k =>
    if 2 ≤ countKey idx k then some (k, countKey idx k) else none)

/-- `df[~df.index.duplicated(keep="first")]`. -/
def dedupFirst (df : Df) : Df :=
  df.selectRows ((List.range df.nrows).filter
    (fun i => decide ((df.index.getD i []) ∉ df.index.take i)))

/-- `df.loc[keys]`: rows re-ordered to the given key list (all keys are
present whenever the function is reached, as in the source). -/
def Df.locByKeys (df : Df) (ks : List (List Value)) : Df :=
  df.selectRows (ks.map (fun k => df.index.findIdx (fun j => decide (j = k))))

/-- The materialized mismatch table of one column: mismatch keys, the two
sides' values (`<col>_LEFT` / `<col>_RIGHT`), and the optional
`mismatch_pct_<col>` column. -/
structure MismatchTable where
  keys : List (List Value)
  leftVals : List Value
  rightVals : List Value
  pct : Option (List Value)
deriving DecidableEq

/-- The `ColumnResult` dataclass (only ever constructed fully populated). -/
structure ColumnResult where
  dtype_match : Bool
  left_dtype : Dtype
  right_dtype : Dtype
  mismatch_percent : Rat
  mismatch_number : Nat
  mismatch_data : MismatchTable
deriving DecidableEq

/-- The `CompareResult` dataclass with its `__post_init__` defaults.  The
source's field `match` is a Lean keyword and is called `matchFlag` here;
`file_name` (cosmetic, never inspected by any claim) is omitted. -/
structure CompareResult where
  matchFlag : Bool := true
  data_match : Bool := true
  right_duplicate : Bool := false
  left_duplicate : Bool := false
  left_only_columns : Option (List String) := none
  right_only_columns : Option (List String) := none
  index_match : Bool := true
  left_index_duplicates : Option (List (List Value × Nat)) := none
  right_index_duplicates : Option (List (List Value × Nat)) := none
  common_index_count : Nat := 0
  left_index_count : Nat := 0
  right_index_count : Nat := 0
  left_only_indexes : List (List Value) := []
  right_only_indexes : List (List Value) := []
  column_results : List (String × ColumnResult) := []
deriving DecidableEq

instance : Inhabited CompareResult := ⟨{}⟩

/-- Lines 123-127: column-set comparison. -/
def colSetStep (d1 d2 : Df) (r : CompareResult) : CompareResult :=
  if sameColSet d1 d2 then r
  else { r with matchFlag := false,
                left_only_columns := some (sortedStrDiff d1.colNames d2.colNames),
                right_only_columns := some (sortedStrDiff d2.colNames d1.colNames) }

/-- Lines 129-157: keying plus duplicate-key detection.  Duplicate masks
are taken on the keyed index before deduplication; each duplicated side is
flagged, its count table recorded, the overall match forced false, and
only first occurrences kept.  `if index_cols:` is Python truthiness. -/
def keyStage (ics : Option (List String)) (d1 d2 : Df) (r : CompareResult) :
    Df × Df × CompareResult :=
  match ics with
  | none => (d1, d2, r)
  | some [] => (d1, d2, r)
  | some kcols =>
    let e1 := applyIndexing kcols d1
    let e2 := applyIndexing kcols d2
    let p1 :=
      if hasDups e1.index then
        (dedupFirst e1, true, some (dupCounts e1.index))
      else (e1, false, (none : Option (List (List Value × Nat))))
    let p2 :=
      if hasDups e2.index then
        (dedupFirst e2, true, some (dupCounts e2.index))
      else (e2, false, (none : Option (List (List Value × Nat))))
    let r := if p1.2.1 then { r with left_duplicate := true, matchFlag := false,
                                     left_index_duplicates := p1.2.2 } else r
    let r := if p2.2.1 then { r with right_duplicate := true, matchFlag := false,
                                     right_index_duplicates := p2.2.2 } else r
    (p1.1, p2.1, r)

/-- `sorted(set(a) - set(b))` on index keys. -/
def sortedIdxDiff (a b : List (List Value)) : List (List Value)  :=
  sortBy valListLt ((a.filter (fun k => decide (k ∉ b))).dedup)

/-- Lines 162-182: index comparison.  On mismatch the exclusive keys and
the common-key count are recorded; an empty common set returns the result
as-is (`inr`), otherwise both frames are narrowed to the common keys. -/
def indexStage (d1 d2 : Df) (r : CompareResult) :
    (Df × Df × CompareResult) ⊕ CompareResult :=
  if d1.index = d2.index then
    Sum.inl (d1, d2, { r with common_index_count := r.left_index_count })
  else
    let common := (d1.index.filter (fun k => decide (k ∈ d2.index))).dedup
    let r := { r with matchFlag := false, index_match := false,
                      left_only_indexes := sortedIdxDiff d1.index d2.index,
                      right_only_indexes := sortedIdxDiff d2.index d1.index,
                      common_index_count := common.length }
    if common.isEmpty then Sum.inr r
    else Sum.inl (d1.locByKeys common, d2.locByKeys common, r)

/-- Lines 56-72, `series_nonequal_index`: keys null on exactly one side,
plus keys non-null on both sides whose values differ under
`np.array_equal`.  When no key is non-null on both sides,
`np.vectorize(np.array_equal)` is applied to size-0 input without
`otypes` and raises ValueError. -/
def series_nonequal_index (idx : List (List Value)) (xs ys : List Value) :
    Except Err (List (List Value)) :=
  let triples := idx.zip (xs.zip ys)
  let nonequalNullIdx := (triples.filter (fun t => t.2.1.isNull != t.2.2.isNull)).map Prod.fst
  let notnull := triples.filter (fun t => !t.2.1.isNull && !t.2.2.isNull)
  if notnull.isEmpty then Except.error Err.valueError
  else Except.ok (nonequalNullIdx ++ (notnull.filter (fun t => !npEq t.2.1 t.2.2)).map Prod.fst)

/-- One cell of `calculate_pct_mismatch` (lines 85-91):
`abs(left - right) / left * 100`.  Division by a zero left value yields 0
under rational division (the real code produces inf/nan there; the
`except ZeroDivisionError` never fires for whole-column operands, and no
claim inspects that cell value). -/
def pctMismatchCell (l r : Value) : Value :=
  match l.toNum?, r.toNum? with
  | some a, some b => Value.floatV (|a - b| / a * 100)
  | _, _ => Value.null

/-- `calculate_pct_mismatch` on whole columns. -/
def calculate_pct_mismatch (ls rs : List Value) : List Value :=
  (ls.zip rs).map (fun p => pctMismatchCell p.1 p.2)

/-- Elementwise `==` between two numeric Series cells (NaN compares
false). -/
def pdEqCell (x y : Value) : Bool :=
  match x.toNum?, y.toNum? with
  | some a, some b => decide (a = b)
  | _, _ => false

/-- `np.where(df1[col] == df2[col], 0, calculate_pct_mismatch(...))`:
one entry per row of the (already narrowed) frames. -/
def whereVals (ls rs : List Value) : List Value :=
  (ls.zip rs).map (fun p => if pdEqCell p.1 p.2 then Value.floatV 0 else pctMismatchCell p.1 p.2)

/-- Lines 205-209 as Python parses them: `A or B and C` is
`A or (B and C)`, so the numeric branch is taken whenever the LEFT dtype
is int, or the left dtype is float and equals the right dtype. -/
def numericCond (d1 d2 : Dtype) : Bool :=
  decide (d1 = Dtype.int) || (decide (d1 = Dtype.float) && decide (d1 = d2))

/-- Modelled from the spec (§4.4 step 4): the intended gate for the
relative-mismatch column — both sides' declared types numeric (integer or
floating-point) and identical.  Kept separate from `numericCond`, the
condition the code actually evaluates. -/
def specNumericCond (d1 d2 : Dtype) : Bool :=
  (decide (d1 = Dtype.int) || decide (d1 = Dtype.float)) &&
  (decide (d2 = Dtype.int) || decide (d2 = Dtype.float)) &&
  decide (d1 = d2)

/-- `Series.equals`: same declared dtype and elementwise-equal values
(nulls at the same positions compare equal); the shared index of the two
narrowed frames is always equal here. -/
def seriesEquals (c1 c2 : Column) : Bool :=
  decide (c1.dtype = c2.dtype) && npEqList c1.values c2.values

/-- The values of a column at the given keys (`df.loc[keys, [col]]`). -/
def valuesAt (idx : List (List Value)) (vals : List Value) (ks : List (List Value)) :
    List Value :=
  ks.map (fun k => vals.getD (idx.findIdx (fun j => decide (j = k))) Value.null)

/-- Lines 197-223, the body of the per-column loop: skip columns that are
`Series.equals`-equal; otherwise compute the mismatch keys (which may
raise, see `series_nonequal_index`), materialize the mismatch table, and
under `numericCond` assign the full-length `np.where` array as the
`mismatch_pct_<col>` column — pandas raises ValueError when that array's
length differs from the mismatch table's row count. -/
def mkMismatchTable (c1 c2 : Column) (base : MismatchTable) (misLen : Nat) :
    Except Err MismatchTable :=
  if numericCond c1.dtype c2.dtype then
    let pv := whereVals c1.values c2.values
    if pv.length = misLen then Except.ok { base with pct := some pv }
    else Except.error Err.valueError
  else Except.ok base

def analyzeColumn (nrows : Nat) (idx : List (List Value)) (c1 c2 : Column) :
    Except Err (Option (String × ColumnResult)) :=
  if seriesEquals c1 c2 then Except.ok none
  else do
    let mis ← series_nonequal_index idx c1.values c2.values
    let base : MismatchTable :=
      { keys := mis, leftVals := valuesAt idx c1.values mis,
        rightVals := valuesAt idx c2.values mis, pct := none }
    let tbl ← mkMismatchTable c1 c2 base mis.length
    Except.ok (some (c1.name,
      { dtype_match := decide (c1.dtype = c2.dtype), left_dtype := c1.dtype,
        right_dtype := c2.dtype,
        mismatch_percent := (mis.length : Rat) / (nrows : Rat) * 100,
        mismatch_number := mis.length, mismatch_data := tbl }))

/-- `[col for col in df1 if col in set(df2.columns)]`. -/
def commonCols (d1 d2 : Df) : List String :=
  d1.colNames.filter (fun c => d2.colNames.contains c)

/-- `df1[common_cols].equals(df2[common_cols])`. -/
def dfEquals (d1 d2 : Df) : Bool :=
  decide (d1.index = d2.index) && (commonCols d1 d2).all (fun c =>
    match d1.getCol? c, d2.getCol? c with
    | some a, some b => seriesEquals a b
    | _, _ => true)

/-- One iteration of the per-column loop: look both columns up and let
`analyzeColumn` decide whether a `ColumnResult` is appended. -/
def colStep (d1 d2 : Df) (acc : List (String × ColumnResult)) (c : String) :
    Except Err (List (String × ColumnResult)) :=
  match d1.getCol? c, d2.getCol? c with
  | some c1, some c2 => do
      match (← analyzeColumn d1.nrows d1.index c1 c2) with
      | none => pure acc
      | some e => pure (acc ++ [e])
  | _, _ => pure acc

/-- Lines 189-223: the fast path skips per-column analysis when all common
columns are equal and the column sets coincide; otherwise `match` and
`data_match` are forced false and each unequal common column contributes a
`ColumnResult`. -/
def columnStage (d1 d2 : Df) (r : CompareResult) : Except Err CompareResult :=
  if dfEquals d1 d2 && sameColSet d1 d2 then Except.ok r
  else do
    let r := { r with matchFlag := false, data_match := false }
    let entries ← (commonCols d1 d2).foldlM (colStep d1 d2) ([] : List (String × ColumnResult))
    Except.ok { r with column_results := entries }

/-- Loading plus pre-normalization plus the ignore-columns filter: the
part of `compare_data` that runs before any comparison. -/
def afterPrep (df1 df2 : Df) (ig : Option (List String)) : Except Err (Df × Df) := do
  let (e1, e2) ← preNormalize df1 df2
  Except.ok (applyIgnore ig e1, applyIgnore ig e2)

/-- Lines 159-225: record the two row counts, compare the indices, and on
the surviving path run the per-column differ. -/
def compareTail (e1 e2 : Df) (r : CompareResult) : Except Err CompareResult :=
  let r := { r with left_index_count := e1.nrows, right_index_count := e2.nrows }
  match indexStage e1 e2 r with
  | Sum.inr rdone => Except.ok rdone
  | Sum.inl (f1, f2, rnext) => columnStage f1 f2 rnext

/-- `compare_data` (lines 94-225) on two already-loaded DataFrames:
pre-normalization, ignore filter, column-set comparison, keying and
duplicate handling, index comparison (with early return on an empty
common key set), then the per-column differ. -/
def compare_data (df1 df2 : Df) (index_cols ignore_cols : Option (List String)) :
    Except Err CompareResult := do
  let (d1, d2) ← afterPrep df1 df2 ignore_cols
  let r := colSetStep d1 d2 {}
  let (e1, e2, r) := keyStage index_cols d1 d2 r
  compareTail e1 e2 r

instance [DecidableEq ε] [DecidableEq α] : DecidableEq (Except ε α)
  | .error x, .error y =>
    if h : x = y then .isTrue (by rw [h]) else .isFalse (fun hh => by cases hh; exact h rfl)
  | .error _, .ok _ => .isFalse (fun h => by cases h)
  | .ok _, .error _ => .isFalse (fun h => by cases h)
  | .ok x, .ok y =>
    if h : x = y then .isTrue (by rw [h]) else .isFalse (fun hh => by cases hh; exact h rfl)

/-- Project the result out of a successful comparison (used to name the
concrete `CompareResult` of a witness run). -/
def okOr (x : Except Err CompareResult) : CompareResult :=
  match x with
  | .ok r => r
  | .error _ => {}

/-- Project the prepared frame pair out of a successful `afterPrep`. -/
def okPair (x : Except Err (Df × Df)) : Df × Df :=
  match x with
  | .ok p => p
  | .error _ => (Df.ofCols [], Df.ofCols [])

/-- Project the frame out of a successful table-transforming step. -/
def okDfOr (x : Except Err Df) : Df :=
  match x with
  | .ok d => d
  | .error _ => Df.ofCols []

/-- An empty embedded-array cell. -/
def emptyArr : Value :=
  Value.arrV []

/-- `n` rows of trivially equal pcodes columns, used to satisfy the
hard-coded pre-normalization in concrete scenarios. -/
def pcColsN (n : Nat) : List Column :=
  [⟨"pcodes_power_poles", Dtype.obj, List.replicate n emptyArr⟩,
   ⟨"pcodes_buildings", Dtype.obj, List.replicate n emptyArr⟩,
   ⟨"pcodes_power_lines", Dtype.obj, List.replicate n emptyArr⟩]

/-- Left table of the spec's concrete scenario: rows `{id:1,val:10}`,
`{id:2,val:20}`. -/
def scenarioLeft : Df :=
  Df.ofCols [⟨"id", Dtype.int, [Value.intV 1, Value.intV 2]⟩,
             ⟨"val", Dtype.int, [Value.intV 10, Value.intV 20]⟩]

/-- Right table of the spec's concrete scenario: rows `{id:1,val:10}`,
`{id:2,val:99}`, `{id:3,val:5}`. -/
def scenarioRight : Df :=
  Df.ofCols [⟨"id", Dtype.int, [Value.intV 1, Value.intV 2, Value.intV 3]⟩,
             ⟨"val", Dtype.int, [Value.intV 10, Value.intV 99, Value.intV 5]⟩]

/-- The scenario tables augmented with the pcodes columns the
pre-normalization insists on. -/
def scenarioLeftAug : Df :=
  Df.ofCols ([⟨"id", Dtype.int, [Value.intV 1, Value.intV 2]⟩,
              ⟨"val", Dtype.int, [Value.intV 10, Value.intV 20]⟩] ++ pcColsN 2)

def scenarioRightAug : Df :=
  Df.ofCols ([⟨"id", Dtype.int, [Value.intV 1, Value.intV 2, Value.intV 3]⟩,
              ⟨"val", Dtype.int, [Value.intV 10, Value.intV 99, Value.intV 5]⟩] ++ pcColsN 3)

/-- Left side of the mixed-dtype numeric scenario: `val` declared int. -/
def mixedIntLeft : Df :=
  Df.ofCols ([⟨"id", Dtype.int, [Value.intV 1, Value.intV 2]⟩,
              ⟨"val", Dtype.int, [Value.intV 10, Value.intV 20]⟩] ++ pcColsN 2)

/-- Right side of the mixed-dtype numeric scenario: `val` declared float,
same keys, one differing value. -/
def mixedFloatRight : Df :=
  Df.ofCols ([⟨"id", Dtype.int, [Value.intV 1, Value.intV 2]⟩,
              ⟨"val", Dtype.float, [Value.floatV 10, Value.floatV 99]⟩] ++ pcColsN 2)

/-- Two-row table whose second-row `pcodes_power_poles` cell is
`["x","y"]`. -/
def orderLeft : Df :=
  Df.ofCols [⟨"id", Dtype.int, [Value.intV 1, Value.intV 2]⟩,
             ⟨"pcodes_power_poles", Dtype.obj,
               [Value.arrV [Value.strV "a"], Value.arrV [Value.strV "x", Value.strV "y"]]⟩,
             ⟨"pcodes_buildings", Dtype.obj, [emptyArr, emptyArr]⟩,
             ⟨"pcodes_power_lines", Dtype.obj, [emptyArr, emptyArr]⟩]

/-- Same table with the second-row cell in the opposite order
`["y","x"]`. -/
def orderRight : Df :=
  Df.ofCols [⟨"id", Dtype.int, [Value.intV 1, Value.intV 2]⟩,
             ⟨"pcodes_power_poles", Dtype.obj,
               [Value.arrV [Value.strV "a"], Value.arrV [Value.strV "y", Value.strV "x"]]⟩,
             ⟨"pcodes_buildings", Dtype.obj, [emptyArr, emptyArr]⟩,
             ⟨"pcodes_power_lines", Dtype.obj, [emptyArr, emptyArr]⟩]

/-- Left side of the equal-values/unequal-dtype scenario: `val` declared
float with values 1.0, 2.0. -/
def eqFloatLeft : Df :=
  Df.ofCols ([⟨"id", Dtype.int, [Value.intV 1, Value.intV 2]⟩,
              ⟨"val", Dtype.float, [Value.floatV 1, Value.floatV 2]⟩] ++ pcColsN 2)

/-- Right side: `val` declared int with the numerically equal values
1, 2. -/
def eqIntRight : Df :=
  Df.ofCols ([⟨"id", Dtype.int, [Value.intV 1, Value.intV 2]⟩,
              ⟨"val", Dtype.int, [Value.intV 1, Value.intV 2]⟩] ++ pcColsN 2)

/-- A well-formed one-row table satisfying the pre-normalization's
hard-coded requirements. -/
def goodOneRow : Df :=
  Df.ofCols ([⟨"id", Dtype.int, [Value.intV 1]⟩,
              ⟨"val", Dtype.str, [Value.strV "x"]⟩] ++ pcColsN 1)

/-- A table with no columns at all (and no rows). -/
def emptyTable : Df :=
  Df.ofCols []

/-- Table of the duplicate-key scenario: two rows sharing key 1,
otherwise identical data (compared against itself, it exercises the
duplicate handling of both sides at once). -/
def dupLeft : Df :=
  Df.ofCols [⟨"id", Dtype.int, [Value.intV 1, Value.intV 1]⟩,
             ⟨"val", Dtype.str, [Value.strV "x", Value.strV "x"]⟩,
             ⟨"pcodes_power_poles", Dtype.obj,
               [Value.arrV [Value.strV "a"], Value.arrV [Value.strV "a"]]⟩,
             ⟨"pcodes_buildings", Dtype.obj, [emptyArr, emptyArr]⟩,
             ⟨"pcodes_power_lines", Dtype.obj, [emptyArr, emptyArr]⟩]

/-- One-row table keyed 1, used for the disjoint-key scenario. -/
def disjLeft : Df :=
  Df.ofCols ([⟨"id", Dtype.int, [Value.intV 1]⟩,
              ⟨"val", Dtype.str, [Value.strV "x"]⟩] ++ pcColsN 1)

/-- One-row table keyed 2, sharing no key with `disjLeft`. -/
def disjRight : Df :=
  Df.ofCols ([⟨"id", Dtype.int, [Value.intV 2]⟩,
              ⟨"val", Dtype.str, [Value.strV "y"]⟩] ++ pcColsN 1)

/-- Left table of the ignore-columns scenario: has a `debug` column. -/
def debugLeft : Df :=
  Df.ofCols [⟨"id", Dtype.int, [Value.intV 1]⟩,
             ⟨"debug", Dtype.str, [Value.strV "d"]⟩]

/-- Right table of the ignore-columns scenario: no `debug` column. -/
def debugRight : Df :=
  Df.ofCols [⟨"id", Dtype.int, [Value.intV 1]⟩]

/-- The column is present and its first cell holds an embedded array. -/
def headArr (df : Df) (c : String) : Bool :=
  match df.getCol? c with
  | some col => match col.values with
    | Value.arrV _ :: _ => true
    | _ => false
  | none => false

/-- All three pcodes columns present, nonempty, and holding an embedded
array in their first cell — the precondition under which the hard-coded
pre-normalization block succeeds. -/
def goodTable (df : Df) : Bool :=
  pcodesCols.all (headArr df)

/-- The column is present with a nonempty values list. -/
def presentNE (df : Df) (c : String) : Prop :=
  ∃ col, df.getCol? c = some col ∧ col.values ≠ []

/-- Some pcodes column is absent from the table, or present but empty
(zero rows): the hypothesis of the implicit-precondition claim. -/
def pcodesMissingOrEmpty (df : Df) : Bool :=
  pcodesCols.any (fun c => match df.getCol? c with
    | none => true
    | some col => col.values.isEmpty)

mutual

theorem npEq_refl : ∀ (v : Value), npEq v v = true
  | .null => rfl
  | .intV _ => by simp [npEq, Value.toNum?]
  | .floatV _ => by simp [npEq, Value.toNum?]
  | .boolV _ => by simp [npEq, Value.toNum?]
  | .strV _ => by simp [npEq, Value.toNum?]
  | .arrV xs => by simpa [npEq] using npEqList_refl xs

theorem npEqList_refl : ∀ (l : List Value), npEqList l l = true
  | [] => rfl
  | x :: xs => by simp [npEqList, npEq_refl x, npEqList_refl xs]

end

theorem seriesEquals_refl (c : Column) : seriesEquals c c = true := by
  simp [seriesEquals, npEqList_refl]

theorem subsetOf_refl (l : List String) : subsetOf l l = true := by
  refine List.all_eq_true.mpr (fun c hc => ?_)
  exact List.elem_eq_true_of_mem hc

theorem sameColSet_refl (d : Df) : sameColSet d d = true := by
  simp [sameColSet, subsetOf_refl]

theorem dfEquals_refl (d : Df) : dfEquals d d = true := by
  unfold dfEquals
  refine Bool.and_eq_true_iff.mpr ⟨by simp, ?_⟩
  refine List.all_eq_true.mpr (fun c hc => ?_)
  cases h : d.getCol? c <;> simp [seriesEquals_refl]

/-- `colSetStep` only touches the overall match flag and the exclusive
column lists. -/
theorem colSetStep_fields (d1 d2 : Df) (r : CompareResult) :
    (colSetStep d1 d2 r).data_match = r.data_match ∧
    (colSetStep d1 d2 r).column_results = r.column_results ∧
    (colSetStep d1 d2 r).index_match = r.index_match ∧
    (colSetStep d1 d2 r).left_duplicate = r.left_duplicate ∧
    (colSetStep d1 d2 r).right_duplicate = r.right_duplicate := by
  unfold colSetStep; split <;> simp

/-- `keyStage` only touches the duplicate flags, their count tables and
the overall match flag. -/
theorem keyStage_fields (ics : Option (List String)) (d1 d2 : Df) (r : CompareResult) :
    (keyStage ics d1 d2 r).2.2.data_match = r.data_match ∧
    (keyStage ics d1 d2 r).2.2.column_results = r.column_results ∧
    (keyStage ics d1 d2 r).2.2.index_match = r.index_match := by
  unfold keyStage
  cases ics with
  | none => simp
  | some l =>
    cases l with
    | nil => simp
    | cons a as => dsimp only; (repeat' split) <;> simp

theorem headArr_elim (df : Df) (c : String) (h : headArr df c = true) :
    ∃ col xs vs, df.getCol? c = some col ∧ col.values = Value.arrV xs :: vs := by
  unfold headArr at h
  split at h
  case _ col heq =>
    split at h
    case _ xs vs hv => exact ⟨col, xs, vs, heq, hv⟩
    case _ => cases h
  case _ => cases h

theorem sortCell0_ok_of_head (df : Df) (c : String) (col : Column) (xs vs : List Value)
    (hc : df.getCol? c = some col) (hv : col.values = Value.arrV xs :: vs) :
    sortCell0 df c = Except.ok (sortHead df c xs vs) := by
  unfold sortCell0
  rw [hc]
  dsimp only
  rw [hv]

theorem sortCell0_ok_elim (df : Df) (c : String) (df' : Df)
    (h : sortCell0 df c = Except.ok df') :
    ∃ col xs vs, df.getCol? c = some col ∧ col.values = Value.arrV xs :: vs ∧
      df' = sortHead df c xs vs := by
  unfold sortCell0 at h
  split at h
  case _ heq => cases h
  case _ col heq =>
    split at h
    case _ hv => cases h
    case _ xs vs hv =>
      refine ⟨col, xs, vs, heq, hv, ?_⟩
      cases h
      rfl
    case _ v vs hv hne => cases h

/-- Column lookup commutes with a name-preserving transformation of the
column list. -/
theorem getCol?_map_stable (df : Df) (g : Column → Column)
    (hg : ∀ k, (g k).name = k.name) (l : List (List Value)) (c' : String) :
    Df.getCol? { index := l, cols := df.cols.map g } c' = (df.getCol? c').map g := by
  unfold Df.getCol?
  dsimp only
  rw [List.find?_map]
  have hfun : ((fun k : Column => k.name == c') ∘ g) = (fun k : Column => k.name == c') :=
    funext (fun k => by simp [Function.comp, hg k])
  rw [hfun]

theorem sortHead_name (k : Column) (c : String) (xs vs : List Value) :
    ((fun k => if k.name = c then { k with values := Value.arrV (sortVals xs) :: vs } else k) k).name
      = k.name := by
  by_cases hk : k.name = c <;> simp [hk]

theorem sortHead_getCol (df : Df) (c : String) (xs vs : List Value) (c' : String) :
    (sortHead df c xs vs).getCol? c'
      = (df.getCol? c').map
          (fun k => if k.name = c then { k with values := Value.arrV (sortVals xs) :: vs } else k) := by
  unfold sortHead
  exact getCol?_map_stable df _ (fun k => sortHead_name k c xs vs) df.index c'

theorem sortHead_index (df : Df) (c : String) (xs vs : List Value) :
    (sortHead df c xs vs).index = df.index := rfl

/-- `sortCell0` leaves every column's head-is-array property intact. -/
theorem sortCell0_headArr (df : Df) (c : String) (df' : Df)
    (h : sortCell0 df c = Except.ok df') (c' : String) (hh : headArr df c' = true) :
    headArr df' c' = true := by
  obtain ⟨col0, xs, vs, hc0, hv0, rfl⟩ := sortCell0_ok_elim df c df' h
  obtain ⟨col, xs', vs', hc, hv⟩ := headArr_elim df c' hh
  unfold headArr
  rw [sortHead_getCol, hc]
  dsimp only [Option.map]
  by_cases hk : col.name = c
  · rw [if_pos hk]
  · rw [if_neg hk, hv]

/-- A successful `sortCell0` certifies its own column present and
nonempty. -/
theorem sortCell0_presentNE_self (df : Df) (c : String) (df' : Df)
    (h : sortCell0 df c = Except.ok df') : presentNE df c := by
  obtain ⟨col, xs, vs, hc, hv, -⟩ := sortCell0_ok_elim df c df' h
  exact ⟨col, hc, by simp [hv]⟩

/-- Present-and-nonempty transfers backwards through `sortCell0`. -/
theorem sortCell0_presentNE_back (df : Df) (c : String) (df' : Df)
    (h : sortCell0 df c = Except.ok df') (c' : String) (hp : presentNE df' c') :
    presentNE df c' := by
  by_cases hcc : c' = c
  · exact hcc ▸ sortCell0_presentNE_self df c df' h
  · obtain ⟨col0, xs, vs, hc0, hv0, rfl⟩ := sortCell0_ok_elim df c df' h
    obtain ⟨col', hc', hne⟩ := hp
    rw [sortHead_getCol] at hc'
    cases hfound : df.getCol? c' with
    | none => rw [hfound] at hc'; cases hc'
    | some col =>
      rw [hfound] at hc'
      have hname : col.name = c' := by
        have := List.find?_some hfound
        simpa using this
      dsimp only [Option.map] at hc'
      rw [if_neg (by rw [hname]; exact hcc)] at hc'
      injection hc' with hsame
      subst hsame
      exact ⟨col, hfound, hne⟩

/-- Destructure a successful `Except` bind. -/
theorem exceptBind_ok {α β : Type} {x : Except Err α} {f : α → Except Err β} {b : β}
    (h : (x >>= f) = Except.ok b) : ∃ a, x = Except.ok a ∧ f a = Except.ok b := by
  cases x with
  | error e => simp [Bind.bind, Except.bind] at h
  | ok a => exact ⟨a, rfl, by simpa [Bind.bind, Except.bind] using h⟩

/-- A successful pre-normalization certifies all three pcodes columns
present and nonempty on both input tables. -/
theorem preNormalize_ok_presentNE (df1 df2 : Df) (p : Df × Df)
    (h : preNormalize df1 df2 = Except.ok p) :
    ∀ c ∈ pcodesCols, presentNE df1 c ∧ presentNE df2 c := by
  unfold preNormalize at h
  obtain ⟨a1, h1, h⟩ := exceptBind_ok h
  obtain ⟨a2, h2, h⟩ := exceptBind_ok h
  obtain ⟨b1, h3, h⟩ := exceptBind_ok h
  obtain ⟨b2, h4, h⟩ := exceptBind_ok h
  obtain ⟨c1, h5, h⟩ := exceptBind_ok h
  obtain ⟨c2, h6, h⟩ := exceptBind_ok h
  intro c hc
  have hppp1 := sortCell0_presentNE_self df1 _ _ h1
  have hppp2 := sortCell0_presentNE_self df2 _ _ h2
  have hpb1 := sortCell0_presentNE_back df1 _ _ h1 _ (sortCell0_presentNE_self a1 _ _ h3)
  have hpb2 := sortCell0_presentNE_back df2 _ _ h2 _ (sortCell0_presentNE_self a2 _ _ h4)
  have hpl1 := sortCell0_presentNE_back df1 _ _ h1 _
    (sortCell0_presentNE_back a1 _ _ h3 _ (sortCell0_presentNE_self b1 _ _ h5))
  have hpl2 := sortCell0_presentNE_back df2 _ _ h2 _
    (sortCell0_presentNE_back a2 _ _ h4 _ (sortCell0_presentNE_self b2 _ _ h6))
  simp only [pcodesCols, List.mem_cons, List.mem_singleton] at hc
  rcases hc with rfl | rfl | rfl | hfalse
  · exact ⟨hppp1, hppp2⟩
  · exact ⟨hpb1, hpb2⟩
  · exact ⟨hpl1, hpl2⟩
  · cases hfalse

/-- Unpack the failure condition of the implicit-precondition claim. -/
theorem pcodesMissingOrEmpty_elim (df : Df) (h : pcodesMissingOrEmpty df = true) :
    ∃ c ∈ pcodesCols, ¬ presentNE df c := by
  unfold pcodesMissingOrEmpty at h
  obtain ⟨c, hc, hcond⟩ := List.any_eq_true.mp h
  refine ⟨c, hc, ?_⟩
  rintro ⟨col, hcol, hne⟩
  rw [hcol] at hcond
  dsimp only at hcond
  exact hne (List.isEmpty_iff.mp hcond)

/-- C10: if either table lacks one of the pcodes columns, or has it with
zero rows, `compare_data` raises during pre-normalization — before any
index reconciliation or column comparison — and returns no
`CompareResult`. -/
theorem c10_missing_pcodes_raises (df1 df2 : Df) (ics igs : Option (List String))
    (h : pcodesMissingOrEmpty df1 = true ∨ pcodesMissingOrEmpty df2 = true) :
    ∃ e, compare_data df1 df2 ics igs = Except.error e := by
  cases hpn : preNormalize df1 df2 with
  | error e =>
    refine ⟨e, ?_⟩
    unfold compare_data afterPrep
    rw [hpn]
    rfl
  | ok p =>
    exfalso
    have hall := preNormalize_ok_presentNE df1 df2 p hpn
    cases h with
    | inl h1 =>
      obtain ⟨c, hc, hnot⟩ := pcodesMissingOrEmpty_elim df1 h1
      exact hnot (hall c hc).1
    | inr h2 =>
      obtain ⟨c, hc, hnot⟩ := pcodesMissingOrEmpty_elim df2 h2
      exact hnot (hall c hc).2

/-- C10 (witness): the empty table lacks `pcodes_power_poles`, and the
comparison of two empty tables indeed raises. -/
theorem c10_missing_pcodes_raises_witness :
    (pcodesMissingOrEmpty emptyTable = true ∨ pcodesMissingOrEmpty emptyTable = true) ∧
    ∃ e, compare_data emptyTable emptyTable (some ["id"]) none = Except.error e :=
  ⟨Or.inl (by decide),
   c10_missing_pcodes_raises emptyTable emptyTable (some ["id"]) none (Or.inl (by decide))⟩

/-- A successful `sortCell0` preserves the whole pre-normalization
precondition. -/
theorem sortCell0_goodTable (df : Df) (c : String) (df' : Df)
    (h : sortCell0 df c = Except.ok df') (hg : goodTable df = true) :
    goodTable df' = true := by
  unfold goodTable at hg ⊢
  refine List.all_eq_true.mpr (fun c' hc' => ?_)
  exact sortCell0_headArr df c df' h c' (List.all_eq_true.mp hg c' hc')

theorem sortCell0_ok_of_headArr (df : Df) (c : String) (hh : headArr df c = true) :
    ∃ df', sortCell0 df c = Except.ok df' := by
  obtain ⟨col, xs, vs, hc, hv⟩ := headArr_elim df c hh
  exact ⟨_, sortCell0_ok_of_head df c col xs vs hc hv⟩

/-- On a good table compared against itself, pre-normalization succeeds
and produces the same table on both sides. -/
theorem preNormalize_self (df : Df) (hg : goodTable df = true) :
    ∃ w, preNormalize df df = Except.ok (w, w) ∧ goodTable w = true := by
  obtain ⟨u1, hu1⟩ := sortCell0_ok_of_headArr df "pcodes_power_poles"
    (List.all_eq_true.mp hg _ (by simp [pcodesCols]))
  have hgu1 := sortCell0_goodTable df _ u1 hu1 hg
  obtain ⟨u2, hu2⟩ := sortCell0_ok_of_headArr u1 "pcodes_buildings"
    (List.all_eq_true.mp hgu1 _ (by simp [pcodesCols]))
  have hgu2 := sortCell0_goodTable u1 _ u2 hu2 hgu1
  obtain ⟨u3, hu3⟩ := sortCell0_ok_of_headArr u2 "pcodes_power_lines"
    (List.all_eq_true.mp hgu2 _ (by simp [pcodesCols]))
  have hgu3 := sortCell0_goodTable u2 _ u3 hu3 hgu2
  refine ⟨u3, ?_, hgu3⟩
  unfold preNormalize
  simp only [hu1, hu2, hu3, Bind.bind, Except.bind]

/-- C4 (amended): for every table containing the three pcodes columns with
an embedded array in their first cells, comparing the table against itself
with no key and no ignore columns returns a full match: `match=true`,
empty `column_results`, no duplicate flags, `index_match=true`. -/
theorem c4_identity_compare (df : Df) (hg : goodTable df = true) :
    ∃ r, compare_data df df none none = Except.ok r ∧
      r.matchFlag = true ∧ r.column_results = [] ∧ r.left_duplicate = false ∧
      r.right_duplicate = false ∧ r.index_match = true := by
  obtain ⟨w, hw, -⟩ := preNormalize_self df hg
  have hap : afterPrep df df none = Except.ok (w, w) := by
    unfold afterPrep
    simp only [hw, Bind.bind, Except.bind]
    rfl
  refine ⟨{ left_index_count := w.nrows, right_index_count := w.nrows,
            common_index_count := w.nrows }, ?_, rfl, rfl, rfl, rfl, rfl⟩
  unfold compare_data
  simp only [hap, Bind.bind, Except.bind]
  simp [keyStage, compareTail, indexStage, columnStage, colSetStep,
        sameColSet_refl, dfEquals_refl]

/-- C4 (witness): the amended identity property at a concrete good
table. -/
theorem c4_identity_compare_witness :
    goodTable goodOneRow = true ∧
    ∃ r, compare_data goodOneRow goodOneRow none none = Except.ok r ∧
      r.matchFlag = true ∧ r.column_results = [] ∧ r.left_duplicate = false ∧
      r.right_duplicate = false ∧ r.index_match = true :=
  ⟨by decide, c4_identity_compare goodOneRow (by decide)⟩

/-- C5 (amended): each pre-normalization line sorts ONLY the cell at row
label 0 of its column: that cell's array is replaced by its sorted copy,
the cells of all other rows are passed through unchanged, and every other
column — and the index — is untouched; order differences in rows other
than the first can therefore still register as mismatches. -/
theorem c5_only_first_cell_sorted (df : Df) (c : String) (col : Column)
    (xs vs : List Value) (df' : Df)
    (hc : df.getCol? c = some col) (hv : col.values = Value.arrV xs :: vs)
    (h : sortCell0 df c = Except.ok df') :
    df'.index = df.index ∧
    df'.getCol? c = some ⟨col.name, col.dtype, Value.arrV (sortVals xs) :: vs⟩ ∧
    ∀ c', c' ≠ c → df'.getCol? c' = df.getCol? c' := by
  obtain ⟨col0, xs0, vs0, hc0, hv0, rfl⟩ := sortCell0_ok_elim df c df' h
  rw [hc] at hc0
  injection hc0 with hsame
  subst hsame
  rw [hv] at hv0
  injection hv0 with hhead htail
  injection hhead with hxs
  subst hxs
  subst htail
  have hname : col.name = c := by
    have := List.find?_some hc
    simpa using this
  refine ⟨sortHead_index df c xs vs, ?_, ?_⟩
  · rw [sortHead_getCol, hc]
    dsimp only [Option.map]
    rw [if_pos hname]
  · intro c' hcc
    rw [sortHead_getCol]
    cases hfound : df.getCol? c' with
    | none => rfl
    | some k =>
      have hkname : k.name = c' := by
        have := List.find?_some hfound
        simpa using this
      dsimp only [Option.map]
      rw [if_neg (by rw [hkname]; exact hcc)]

/-- The `pcodes_power_poles` column of `orderLeft`. -/
def orderLeftPcodes : Column :=
  ⟨"pcodes_power_poles", Dtype.obj,
    [Value.arrV [Value.strV "a"], Value.arrV [Value.strV "x", Value.strV "y"]]⟩

/-- `orderLeft` after the first pre-normalization line. -/
def orderLeftSorted : Df :=
  okDfOr (sortCell0 orderLeft "pcodes_power_poles")

/-- C5 (witness): on `orderLeft`, the first pre-normalization line sorts
the row-0 cell of `pcodes_power_poles` and leaves the `id` column
untouched. -/
theorem c5_only_first_cell_sorted_witness :
    orderLeft.getCol? "pcodes_power_poles" = some orderLeftPcodes ∧
    orderLeftSorted.getCol? "pcodes_power_poles"
      = some ⟨"pcodes_power_poles", Dtype.obj,
          Value.arrV (sortVals [Value.strV "a"])
            :: [Value.arrV [Value.strV "x", Value.strV "y"]]⟩ ∧
    orderLeftSorted.getCol? "id" = orderLeft.getCol? "id" :=
  ⟨by decide,
   (c5_only_first_cell_sorted orderLeft "pcodes_power_poles" orderLeftPcodes
      [Value.strV "a"] [Value.arrV [Value.strV "x", Value.strV "y"]] orderLeftSorted
      (by decide) (by decide) (by decide)).2.1,
   (c5_only_first_cell_sorted orderLeft "pcodes_power_poles" orderLeftPcodes
      [Value.strV "a"] [Value.arrV [Value.strV "x", Value.strV "y"]] orderLeftSorted
      (by decide) (by decide) (by decide)).2.2 "id" (by decide)⟩

/-- With keying requested and duplicates in the keyed left index, the key
stage flags the left side, forces mismatch, records the count table and
passes on the deduplicated frame. -/
theorem keyStage_dupLeft (kc : String) (ks : List String) (d1 d2 : Df) (r : CompareResult)
    (hd : hasDups (applyIndexing (kc :: ks) d1).index = true) :
    (keyStage (some (kc :: ks)) d1 d2 r).1 = dedupFirst (applyIndexing (kc :: ks) d1) ∧
    (keyStage (some (kc :: ks)) d1 d2 r).2.2.left_duplicate = true ∧
    (keyStage (some (kc :: ks)) d1 d2 r).2.2.matchFlag = false ∧
    (keyStage (some (kc :: ks)) d1 d2 r).2.2.left_index_duplicates
      = some (dupCounts (applyIndexing (kc :: ks) d1).index) := by
  unfold keyStage
  dsimp only
  rw [if_pos hd]
  split <;> simp

/-- With keying requested and duplicates in the keyed right index, the key
stage flags the right side, forces mismatch, records the count table and
passes on the deduplicated frame — whatever happened on the left. -/
theorem keyStage_dupRight (kc : String) (ks : List String) (d1 d2 : Df) (r : CompareResult)
    (hd : hasDups (applyIndexing (kc :: ks) d2).index = true) :
    (keyStage (some (kc :: ks)) d1 d2 r).2.1 = dedupFirst (applyIndexing (kc :: ks) d2) ∧
    (keyStage (some (kc :: ks)) d1 d2 r).2.2.right_duplicate = true ∧
    (keyStage (some (kc :: ks)) d1 d2 r).2.2.matchFlag = false ∧
    (keyStage (some (kc :: ks)) d1 d2 r).2.2.right_index_duplicates
      = some (dupCounts (applyIndexing (kc :: ks) d2).index) := by
  unfold keyStage
  dsimp only
  rw [if_pos hd]
  (repeat' split) <;> simp_all

/-- The per-column stage never touches the duplicate flags, their count
tables, the index fields or the exclusive lists, and never resets a false
match flag. -/
theorem columnStage_pres (d1 d2 : Df) (r r' : CompareResult)
    (h : columnStage d1 d2 r = Except.ok r') :
    r'.left_duplicate = r.left_duplicate ∧
    r'.right_duplicate = r.right_duplicate ∧
    r'.left_index_duplicates = r.left_index_duplicates ∧
    r'.right_index_duplicates = r.right_index_duplicates ∧
    r'.index_match = r.index_match ∧
    r'.common_index_count = r.common_index_count ∧
    (r.matchFlag = false → r'.matchFlag = false) := by
  unfold columnStage at h
  split at h
  · injection h with h
    subst h
    simp
  · obtain ⟨entries, -, h2⟩ := exceptBind_ok h
    injection h2 with h2
    subst h2
    simp

/-- The index stage (continue branch) preserves everything but the match
flag, index flag and common-count bookkeeping it owns. -/
theorem indexStage_pres_inl (d1 d2 : Df) (r : CompareResult) (f1 f2 : Df) (r2 : CompareResult)
    (h : indexStage d1 d2 r = Sum.inl (f1, f2, r2)) :
    r2.left_duplicate = r.left_duplicate ∧ r2.right_duplicate = r.right_duplicate ∧
    r2.left_index_duplicates = r.left_index_duplicates ∧
    r2.right_index_duplicates = r.right_index_duplicates ∧
    r2.data_match = r.data_match ∧ r2.column_results = r.column_results ∧
    (r.matchFlag = false → r2.matchFlag = false) := by
  unfold indexStage at h
  split at h
  · injection h with h
    rw [Prod.ext_iff, Prod.ext_iff] at h
    obtain ⟨-, -, h3⟩ := h
    subst h3
    simp
  · dsimp only at h
    split at h
    · cases h
    · injection h with h
      rw [Prod.ext_iff, Prod.ext_iff] at h
      obtain ⟨-, -, h3⟩ := h
      subst h3
      simp

/-- The index stage (early-return branch) forces the mismatch flags and
reports an empty common count, preserving everything else. -/
theorem indexStage_pres_inr (d1 d2 : Df) (r rd : CompareResult)
    (h : indexStage d1 d2 r = Sum.inr rd) :
    rd.left_duplicate = r.left_duplicate ∧ rd.right_duplicate = r.right_duplicate ∧
    rd.left_index_duplicates = r.left_index_duplicates ∧
    rd.right_index_duplicates = r.right_index_duplicates ∧
    rd.data_match = r.data_match ∧ rd.column_results = r.column_results ∧
    rd.matchFlag = false ∧ rd.index_match = false ∧
    rd.common_index_count = 0 := by
  unfold indexStage at h
  split at h
  · cases h
  · dsimp only at h
    split at h
    case _ hempty =>
      injection h with h
      subst h
      refine ⟨rfl, rfl, rfl, rfl, rfl, rfl, rfl, rfl, ?_⟩
      simpa [List.isEmpty_iff, List.length_eq_zero] using hempty
    case _ => cases h

/-- The whole comparison tail preserves the duplicate bookkeeping and a
false match flag. -/
theorem compareTail_pres (e1 e2 : Df) (r r' : CompareResult)
    (h : compareTail e1 e2 r = Except.ok r') :
    r'.left_duplicate = r.left_duplicate ∧
    r'.right_duplicate = r.right_duplicate ∧
    r'.left_index_duplicates = r.left_index_duplicates ∧
    r'.right_index_duplicates = r.right_index_duplicates ∧
    (r.matchFlag = false → r'.matchFlag = false) := by
  unfold compareTail at h
  cases hix : indexStage e1 e2
      { r with left_index_count := e1.nrows, right_index_count := e2.nrows } with
  | inl t =>
    obtain ⟨f1, f2, rn⟩ := t
    dsimp only at h
    rw [hix] at h
    dsimp only at h
    obtain ⟨p1, p2, p3, p4, -, -, p7⟩ := indexStage_pres_inl _ _ _ _ _ _ hix
    obtain ⟨q1, q2, q3, q4, -, -, q7⟩ := columnStage_pres _ _ _ _ h
    exact ⟨by rw [q1, p1], by rw [q2, p2], by rw [q3, p3], by rw [q4, p4],
           fun hm => q7 (p7 hm)⟩
  | inr rd =>
    dsimp only at h
    rw [hix] at h
    dsimp only at h
    injection h with h
    subst h
    obtain ⟨p1, p2, p3, p4, -, -, p7, -, -⟩ := indexStage_pres_inr _ _ _ _ hix
    exact ⟨p1, p2, p3, p4, fun _ => p7⟩

/-- C7: with key columns given, whenever a side's keyed table has at least
two rows sharing a key, any returned comparison has that side's duplicate
flag set (`left_duplicate` / `right_duplicate`), that side's per-key count
table recorded, the overall match forced false (no matter how equal the
data is), and the key stage hands that side's first-occurrence-
deduplicated frame to the rest of the pipeline. -/
theorem c7_duplicate_keys (df1 df2 : Df) (kc : String) (ks : List String)
    (igs : Option (List String)) (d1 d2 : Df) (r : CompareResult)
    (hprep : afterPrep df1 df2 igs = Except.ok (d1, d2))
    (hok : compare_data df1 df2 (some (kc :: ks)) igs = Except.ok r) :
    (hasDups (applyIndexing (kc :: ks) d1).index = true →
      r.left_duplicate = true ∧ r.matchFlag = false ∧
      r.left_index_duplicates = some (dupCounts (applyIndexing (kc :: ks) d1).index) ∧
      (keyStage (some (kc :: ks)) d1 d2 (colSetStep d1 d2 {})).1
        = dedupFirst (applyIndexing (kc :: ks) d1)) ∧
    (hasDups (applyIndexing (kc :: ks) d2).index = true →
      r.right_duplicate = true ∧ r.matchFlag = false ∧
      r.right_index_duplicates = some (dupCounts (applyIndexing (kc :: ks) d2).index) ∧
      (keyStage (some (kc :: ks)) d1 d2 (colSetStep d1 d2 {})).2.1
        = dedupFirst (applyIndexing (kc :: ks) d2)) := by
  unfold compare_data at hok
  rw [hprep] at hok
  simp only [Bind.bind, Except.bind] at hok
  rcases hK : keyStage (some (kc :: ks)) d1 d2 (colSetStep d1 d2 {}) with ⟨e1, e2, r1⟩
  rw [hK] at hok
  dsimp only at hok
  obtain ⟨q1, q2, q3, q4, q5⟩ := compareTail_pres e1 e2 r1 r hok
  constructor
  · intro hdup
    have hks := keyStage_dupLeft kc ks d1 d2 (colSetStep d1 d2 {}) hdup
    rw [hK] at hks
    dsimp only at hks
    obtain ⟨t1, t2, t3, t4⟩ := hks
    exact ⟨by rw [q1, t2], q5 t3, by rw [q3, t4], t1⟩
  · intro hdup
    have hks := keyStage_dupRight kc ks d1 d2 (colSetStep d1 d2 {}) hdup
    rw [hK] at hks
    dsimp only at hks
    obtain ⟨t1, t2, t3, t4⟩ := hks
    exact ⟨by rw [q2, t2], q5 t3, by rw [q4, t4], t1⟩

/-- C7 (witness): the concrete duplicate-key scenario — the two-row table
sharing key 1 compared against itself, so the keyed index of each side is
duplicated: both duplicate flags are set and the match is forced false
even though all data is identical. -/
theorem c7_duplicate_keys_witness :
    hasDups (applyIndexing ["id"] (okPair (afterPrep dupLeft dupLeft none)).1).index = true ∧
    hasDups (applyIndexing ["id"] (okPair (afterPrep dupLeft dupLeft none)).2).index = true ∧
    (okOr (compare_data dupLeft dupLeft (some ["id"]) none)).left_duplicate = true ∧
    (okOr (compare_data dupLeft dupLeft (some ["id"]) none)).right_duplicate = true ∧
    (okOr (compare_data dupLeft dupLeft (some ["id"]) none)).matchFlag = false :=
  ⟨by decide, by decide,
   ((c7_duplicate_keys dupLeft dupLeft "id" [] none
      (okPair (afterPrep dupLeft dupLeft none)).1 (okPair (afterPrep dupLeft dupLeft none)).2
      (okOr (compare_data dupLeft dupLeft (some ["id"]) none))
      (by decide) (by decide)).1 (by decide)).1,
   ((c7_duplicate_keys dupLeft dupLeft "id" [] none
      (okPair (afterPrep dupLeft dupLeft none)).1 (okPair (afterPrep dupLeft dupLeft none)).2
      (okOr (compare_data dupLeft dupLeft (some ["id"]) none))
      (by decide) (by decide)).2 (by decide)).1,
   ((c7_duplicate_keys dupLeft dupLeft "id" [] none
      (okPair (afterPrep dupLeft dupLeft none)).1 (okPair (afterPrep dupLeft dupLeft none)).2
      (okOr (compare_data dupLeft dupLeft (some ["id"]) none))
      (by decide) (by decide)).1 (by decide)).2.1⟩

theorem sortCell0_index (df : Df) (c : String) (df' : Df)
    (h : sortCell0 df c = Except.ok df') : df'.index = df.index := by
  obtain ⟨col, xs, vs, -, -, rfl⟩ := sortCell0_ok_elim df c df' h
  rfl

theorem preNormalize_index (df1 df2 : Df) (p1 p2 : Df)
    (h : preNormalize df1 df2 = Except.ok (p1, p2)) :
    p1.index = df1.index ∧ p2.index = df2.index := by
  unfold preNormalize at h
  obtain ⟨a1, h1, h⟩ := exceptBind_ok h
  obtain ⟨a2, h2, h⟩ := exceptBind_ok h
  obtain ⟨b1, h3, h⟩ := exceptBind_ok h
  obtain ⟨b2, h4, h⟩ := exceptBind_ok h
  obtain ⟨c1, h5, h⟩ := exceptBind_ok h
  obtain ⟨c2, h6, h⟩ := exceptBind_ok h
  injection h with h
  rw [Prod.ext_iff] at h
  obtain ⟨hp1, hp2⟩ := h
  dsimp at hp1 hp2
  subst hp1
  subst hp2
  rw [sortCell0_index _ _ _ h5, sortCell0_index _ _ _ h3, sortCell0_index _ _ _ h1,
      sortCell0_index _ _ _ h6, sortCell0_index _ _ _ h4, sortCell0_index _ _ _ h2]
  exact ⟨rfl, rfl⟩

theorem applyIgnore_index (ig : Option (List String)) (df : Df) :
    (applyIgnore ig df).index = df.index := by
  unfold applyIgnore
  cases ig with
  | none => rfl
  | some l =>
    cases l with
    | nil => rfl
    | cons a as => dsimp only; split <;> rfl

theorem afterPrep_index (df1 df2 : Df) (igs : Option (List String)) (d1 d2 : Df)
    (h : afterPrep df1 df2 igs = Except.ok (d1, d2)) :
    d1.index = df1.index ∧ d2.index = df2.index := by
  unfold afterPrep at h
  obtain ⟨p, hp, h2⟩ := exceptBind_ok h
  obtain ⟨p1, p2⟩ := p
  injection h2 with h2
  rw [Prod.ext_iff] at h2
  obtain ⟨hq1, hq2⟩ := h2
  dsimp at hq1 hq2
  subst hq1
  subst hq2
  rw [applyIgnore_index, applyIgnore_index]
  exact preNormalize_index df1 df2 p1 p2 hp

/-- A rectangular table with a present nonempty column has rows. -/
theorem index_ne_nil_of_presentNE (df : Df) (c : String)
    (hp : presentNE df c) (hw : df.wf) : df.index ≠ [] := by
  obtain ⟨col, hc, hne⟩ := hp
  have hmem : col ∈ df.cols := List.mem_of_find?_eq_some hc
  have hlen := hw col hmem
  intro hnil
  rw [hnil] at hlen
  simp at hlen
  exact hne hlen

theorem insertBy_length (lt : α → α → Bool) (x : α) (l : List α) :
    (insertBy lt x l).length = l.length + 1 := by
  induction l with
  | nil => rfl
  | cons y ys ih => unfold insertBy; split <;> simp [ih]

theorem sortBy_length (lt : α → α → Bool) (l : List α) :
    (sortBy lt l).length = l.length := by
  unfold sortBy
  induction l with
  | nil => rfl
  | cons x xs ih => simp [insertBy_length, ih]

theorem applyIndexing_nrows (kcols : List String) (df : Df) :
    (applyIndexing kcols df).index.length = df.index.length := by
  unfold applyIndexing
  split
  · dsimp only
    rw [List.length_map, sortBy_length, List.length_map, List.length_range]
    rfl
  · rfl

theorem applyIndexing_index_ne_nil (kcols : List String) (df : Df)
    (h : df.index ≠ []) : (applyIndexing kcols df).index ≠ [] := by
  intro hcontra
  have := applyIndexing_nrows kcols df
  rw [hcontra] at this
  simp at this
  exact h (List.length_eq_zero.mp this.symm)

theorem dedupFirst_index_ne_nil (df : Df) (h : df.index ≠ []) :
    (dedupFirst df).index ≠ [] := by
  unfold dedupFirst Df.selectRows
  dsimp only
  intro hcontra
  rw [List.map_eq_nil_iff] at hcontra
  have h0 : (0 : Nat) ∈ List.range df.nrows := by
    rw [List.mem_range]
    exact Nat.pos_of_ne_zero (fun hh => h (List.length_eq_zero.mp hh))
  have hp : (decide ((df.index.getD 0 []) ∉ df.index.take 0)) = true := by simp
  have hmemf : (0 : Nat) ∈ (List.range df.nrows).filter
      (fun i => decide ((df.index.getD i []) ∉ df.index.take i)) :=
    List.mem_filter.mpr ⟨h0, hp⟩
  rw [hcontra] at hmemf
  cases hmemf

theorem keyStage_left_index_ne_nil (ics : Option (List String)) (d1 d2 : Df)
    (r : CompareResult) (e1 e2 : Df) (r1 : CompareResult)
    (hkey : keyStage ics d1 d2 r = (e1, e2, r1)) (h1 : d1.index ≠ []) :
    e1.index ≠ [] := by
  unfold keyStage at hkey
  cases ics with
  | none => cases hkey; exact h1
  | some l =>
    cases l with
    | nil => cases hkey; exact h1
    | cons kc ks =>
      dsimp only at hkey
      cases hkey
      split
      · exact dedupFirst_index_ne_nil _ (applyIndexing_index_ne_nil _ _ h1)
      · exact applyIndexing_index_ne_nil _ _ h1

/-- C8: when the two (prepared, keyed) tables share no key, `compare_data`
returns right after the index comparison: `data_match` is still its
default `true` (never evaluated), `index_match = false`, `match = false`,
`common_index_count = 0`, and no per-column analysis was performed
(`column_results` empty). -/
theorem c8_empty_intersection (df1 df2 : Df) (ics igs : Option (List String))
    (d1 d2 e1 e2 : Df) (r1 : CompareResult)
    (hw1 : df1.wf)
    (hprep : afterPrep df1 df2 igs = Except.ok (d1, d2))
    (hkey : keyStage ics d1 d2 (colSetStep d1 d2 {}) = (e1, e2, r1))
    (hdisj : ∀ k ∈ e1.index, k ∉ e2.index) :
    ∃ r, compare_data df1 df2 ics igs = Except.ok r ∧
      r.data_match = true ∧ r.index_match = false ∧ r.matchFlag = false ∧
      r.common_index_count = 0 ∧ r.column_results = [] := by
  obtain ⟨p, hp, -⟩ := exceptBind_ok (show _ from hprep)
  have hne1 : df1.index ≠ [] :=
    index_ne_nil_of_presentNE df1 "pcodes_power_poles"
      ((preNormalize_ok_presentNE df1 df2 p hp) _ (by simp [pcodesCols])).1 hw1
  have hd1 : d1.index = df1.index := (afterPrep_index df1 df2 igs d1 d2 hprep).1
  have hne : e1.index ≠ [] :=
    keyStage_left_index_ne_nil ics d1 d2 _ e1 e2 r1 hkey (by rw [hd1]; exact hne1)
  have hnee : ¬ (e1.index = e2.index) := by
    intro he
    cases hx : e1.index with
    | nil => exact hne hx
    | cons k ksx =>
      have hk : k ∈ e1.index := by rw [hx]; exact List.mem_cons_self k ksx
      exact hdisj k hk (he ▸ hk)
  have hfil : e1.index.filter (fun k => decide (k ∈ e2.index)) = [] :=
    List.filter_eq_nil_iff.mpr (fun k hk => by simp [hdisj k hk])
  have hdm : r1.data_match = true := by
    have hkf := keyStage_fields ics d1 d2 (colSetStep d1 d2 {})
    rw [hkey] at hkf
    rw [hkf.1, (colSetStep_fields d1 d2 {}).1]
  have hcr : r1.column_results = [] := by
    have hkf := keyStage_fields ics d1 d2 (colSetStep d1 d2 {})
    rw [hkey] at hkf
    rw [hkf.2.1, (colSetStep_fields d1 d2 {}).2.1]
  unfold compare_data
  rw [hprep]
  simp only [Bind.bind, Except.bind]
  rw [hkey]
  dsimp only
  unfold compareTail
  dsimp only
  unfold indexStage
  rw [if_neg hnee]
  dsimp only
  rw [hfil, List.dedup_nil]
  simp only [List.isEmpty_nil, if_true]
  exact ⟨_, rfl, hdm, rfl, rfl, rfl, hcr⟩

/-- The prepared frames of the disjoint-key scenario. -/
def disjPrep : Df × Df :=
  okPair (afterPrep disjLeft disjRight none)

/-- The keyed frames and bookkeeping of the disjoint-key scenario. -/
def disjKey : Df × Df × CompareResult :=
  keyStage (some ["id"]) disjPrep.1 disjPrep.2 (colSetStep disjPrep.1 disjPrep.2 {})

/-- C8 (witness): the one-row tables keyed 1 and 2 share no key, and the
comparison returns the early-exit result. -/
theorem c8_empty_intersection_witness :
    disjLeft.wf ∧ (∀ k ∈ disjKey.1.index, k ∉ disjKey.2.1.index) ∧
    (∃ r, compare_data disjLeft disjRight (some ["id"]) none = Except.ok r ∧
      r.data_match = true ∧ r.index_match = false ∧ r.matchFlag = false ∧
      r.common_index_count = 0 ∧ r.column_results = []) :=
  ⟨by decide, by decide,
   c8_empty_intersection disjLeft disjRight (some ["id"]) none
     disjPrep.1 disjPrep.2 disjKey.1 disjKey.2.1 disjKey.2.2
     (by decide) (by decide) rfl (by decide)⟩

/-- A failed elementwise comparison of equal-length columns has a failing
position. -/
theorem npEqList_false_exists : ∀ (xs ys : List Value), npEqList xs ys = false →
    xs.length = ys.length →
    ∃ (i : Nat) (x y : Value), xs[i]? = some x ∧ ys[i]? = some y ∧ npEq x y = false
  | [], [], h, _ => by rw [npEqList] at h; cases h
  | [], _ :: _, _, hl => by cases hl
  | _ :: _, [], _, hl => by cases hl
  | x :: xs, y :: ys, h, hl => by
    rw [npEqList] at h
    cases hxy : npEq x y with
    | false => exact ⟨0, x, y, by simp, by simp, hxy⟩
    | true =>
      rw [hxy, Bool.true_and] at h
      have hl2 : xs.length = ys.length := by simpa using hl
      obtain ⟨i, a, b, ha, hb, hab⟩ := npEqList_false_exists xs ys h hl2
      exact ⟨i + 1, a, b, by simpa using ha, by simpa using hb, hab⟩

/-- When the comparator succeeds on columns of the right lengths whose
values are not all `np.array_equal`-equal, it reports at least one
mismatch key. -/
theorem series_nonequal_ok_ne_nil (idx : List (List Value)) (xs ys : List Value)
    (out : List (List Value))
    (h : series_nonequal_index idx xs ys = Except.ok out)
    (hlen1 : idx.length = xs.length) (hlen2 : xs.length = ys.length)
    (hne : npEqList xs ys = false) : out ≠ [] := by
  obtain ⟨i, x, y, hx, hy, hxy⟩ := npEqList_false_exists xs ys hne hlen2
  have hi : i < xs.length := by
    by_contra hge
    rw [List.getElem?_eq_none (Nat.le_of_not_lt hge)] at hx
    cases hx
  have hik : i < idx.length := by rw [hlen1]; exact hi
  obtain ⟨k, hk⟩ : ∃ k, idx[i]? = some k := ⟨idx[i], List.getElem?_eq_getElem hik⟩
  have htrip : (idx.zip (xs.zip ys))[i]? = some (k, x, y) := by
    rw [List.getElem?_zip_eq_some]
    exact ⟨hk, by rw [List.getElem?_zip_eq_some]; exact ⟨hx, hy⟩⟩
  have hmem : (k, x, y) ∈ idx.zip (xs.zip ys) := List.getElem?_mem htrip
  unfold series_nonequal_index at h
  dsimp only at h
  split at h
  · cases h
  case _ hnotempty =>
    injection h with h
    subst h
    by_cases hxn : x.isNull
    · -- y cannot be null too (two nulls are npEq-equal), so the key is in
      -- the null-mismatch part
      have hyn : y.isNull = false := by
        cases x with
        | null =>
          cases y with
          | null => rw [npEq] at hxy; cases hxy
          | intV n => rfl
          | floatV q => rfl
          | boolV b => rfl
          | strV s => rfl
          | arrV l => rfl
        | intV n => cases hxn
        | floatV q => cases hxn
        | boolV b => cases hxn
        | strV s => cases hxn
        | arrV l => cases hxn
      apply List.ne_nil_of_mem (a := k)
      apply List.mem_append_left
      exact List.mem_map.mpr ⟨(k, x, y), List.mem_filter.mpr ⟨hmem, by simp [hxn, hyn]⟩, rfl⟩
    · by_cases hyn : y.isNull
      · apply List.ne_nil_of_mem (a := k)
        apply List.mem_append_left
        exact List.mem_map.mpr ⟨(k, x, y), List.mem_filter.mpr ⟨hmem, by simp [hxn, hyn]⟩, rfl⟩
      · apply List.ne_nil_of_mem (a := k)
        apply List.mem_append_right
        exact List.mem_map.mpr ⟨(k, x, y),
          List.mem_filter.mpr ⟨List.mem_filter.mpr ⟨hmem, by simp [hxn, hyn]⟩, by simp [hxy]⟩, rfl⟩

/-- A recorded `ColumnResult` carries the left column's name and is either
a real value mismatch (at least one mismatching key) or a dtype
mismatch. -/
theorem analyzeColumn_some (n : Nat) (idx : List (List Value)) (c1 c2 : Column)
    (nm : String) (cr : ColumnResult)
    (h : analyzeColumn n idx c1 c2 = Except.ok (some (nm, cr)))
    (hlen1 : idx.length = c1.values.length)
    (hlen2 : c1.values.length = c2.values.length) :
    nm = c1.name ∧ (1 ≤ cr.mismatch_number ∨ cr.dtype_match = false) := by
  unfold analyzeColumn at h
  split at h
  · cases h
  case _ hneq =>
    obtain ⟨mis, hmis, h⟩ := exceptBind_ok h
    obtain ⟨tbl, -, h⟩ := exceptBind_ok h
    injection h with h
    injection h with h
    rw [Prod.ext_iff] at h
    obtain ⟨hnm, hcr⟩ := h
    dsimp at hnm hcr
    subst hcr
    refine ⟨hnm.symm, ?_⟩
    by_cases hdt : c1.dtype = c2.dtype
    · left
      have hnel : npEqList c1.values c2.values = false := by
        cases hnp : npEqList c1.values c2.values with
        | true =>
          exfalso
          apply hneq
          simp [seriesEquals, hdt, hnp]
        | false => rfl
      have hmisne := series_nonequal_ok_ne_nil idx c1.values c2.values mis hmis hlen1 hlen2 hnel
      exact Nat.succ_le_of_lt (List.length_pos.mpr hmisne)
    · right
      dsimp only
      simp [hdt]

/-- What the amended C6 invariant asserts of one recorded entry, relative
to the two frames being compared. -/
def entryGood (d1 d2 : Df) (p : String × ColumnResult) : Prop :=
  (1 ≤ p.2.mismatch_number ∨ p.2.dtype_match = false) ∧
  p.1 ∈ d1.colNames ∧ p.1 ∈ d2.colNames

theorem name_mem_colNames (df : Df) (c : String) (col : Column)
    (h : df.getCol? c = some col) : c ∈ df.colNames := by
  have hmem : col ∈ df.cols := List.mem_of_find?_eq_some h
  have hname : col.name = c := by
    have := List.find?_some h
    simpa using this
  exact hname ▸ List.mem_map_of_mem Column.name hmem

/-- One loop step either keeps the accumulator or appends one good
entry. -/
theorem colStep_out (d1 d2 : Df) (acc out : List (String × ColumnResult)) (c : String)
    (h : colStep d1 d2 acc c = Except.ok out)
    (hw1 : d1.wf) (hw2 : d2.wf) (hlen : d1.index.length = d2.index.length) :
    out = acc ∨ ∃ cr, out = acc ++ [(c, cr)] ∧ entryGood d1 d2 (c, cr) := by
  unfold colStep at h
  cases hg1 : d1.getCol? c with
  | none =>
    rw [hg1] at h
    dsimp only at h
    injection h with h
    exact Or.inl h.symm
  | some c1 =>
    cases hg2 : d2.getCol? c with
    | none =>
      rw [hg1, hg2] at h
      dsimp only at h
      injection h with h
      exact Or.inl h.symm
    | some c2 =>
      rw [hg1, hg2] at h
      dsimp only at h
      obtain ⟨o, ho, h⟩ := exceptBind_ok h
      cases o with
      | none =>
        injection h with h
        exact Or.inl h.symm
      | some e =>
        obtain ⟨nm, cr⟩ := e
        injection h with h
        have hlen1 : d1.index.length = c1.values.length :=
          (hw1 c1 (List.mem_of_find?_eq_some hg1)).symm
        have hlen2 : c1.values.length = c2.values.length := by
          rw [← hlen1, hlen]
          exact (hw2 c2 (List.mem_of_find?_eq_some hg2)).symm
        obtain ⟨hnm, hprop⟩ := analyzeColumn_some d1.nrows d1.index c1 c2 nm cr ho hlen1 hlen2
        have hname1 : c1.name = c := by
          have := List.find?_some hg1
          simpa using this
        right
        refine ⟨cr, ?_, hprop, name_mem_colNames d1 c c1 hg1, name_mem_colNames d2 c c2 hg2⟩
        rw [← h, hnm, hname1]

/-- Folding the loop over any column list only adds good entries. -/
theorem foldlM_colStep_good (d1 d2 : Df) (hw1 : d1.wf) (hw2 : d2.wf)
    (hlen : d1.index.length = d2.index.length) :
    ∀ (l : List String) (acc out : List (String × ColumnResult)),
      List.foldlM (colStep d1 d2) acc l = Except.ok out →
      (∀ p ∈ acc, entryGood d1 d2 p) → ∀ p ∈ out, entryGood d1 d2 p := by
  intro l
  induction l with
  | nil =>
    intro acc out h hacc
    rw [List.foldlM_nil] at h
    injection h with h
    exact h ▸ hacc
  | cons c cs ih =>
    intro acc out h hacc
    rw [List.foldlM_cons] at h
    obtain ⟨a, ha, hrest⟩ := exceptBind_ok h
    clear h
    rcases colStep_out d1 d2 acc a c ha hw1 hw2 hlen with heq | ⟨cr, heq, hgood⟩
    · subst heq
      exact ih _ out hrest hacc
    · subst heq
      refine ih _ out hrest (fun p hp => ?_)
      rcases List.mem_append.mp hp with hp1 | hp2
      · exact hacc p hp1
      · rw [List.mem_singleton.mp hp2]
        exact hgood

/-- All entries of a successful per-column stage are good (or were already
in the incoming result). -/
theorem columnStage_entries (d1 d2 : Df) (r r' : CompareResult)
    (h : columnStage d1 d2 r = Except.ok r')
    (hw1 : d1.wf) (hw2 : d2.wf) (hlen : d1.index.length = d2.index.length) :
    ∀ p ∈ r'.column_results, entryGood d1 d2 p ∨ p ∈ r.column_results := by
  unfold columnStage at h
  split at h
  · injection h with h
    subst h
    exact fun p hp => Or.inr hp
  · obtain ⟨entries, hent, h2⟩ := exceptBind_ok h
    injection h2 with h2
    subst h2
    intro p hp
    dsimp only at hp
    exact Or.inl (foldlM_colStep_good d1 d2 hw1 hw2 hlen _ [] entries hent (by simp) p hp)

theorem selectRows_wf (df : Df) (pos : List Nat) : (df.selectRows pos).wf := by
  intro c hc
  unfold Df.selectRows at hc ⊢
  dsimp only at hc ⊢
  obtain ⟨k, -, rfl⟩ := List.mem_map.mp hc
  simp

theorem selectRows_colNames (df : Df) (pos : List Nat) :
    (df.selectRows pos).colNames = df.colNames := by
  unfold Df.selectRows Df.colNames
  dsimp only
  rw [List.map_map]
  exact List.map_congr_left (fun k _ => rfl)

theorem selectRows_index_length (df : Df) (pos : List Nat) :
    (df.selectRows pos).index.length = pos.length := by
  unfold Df.selectRows
  dsimp only
  rw [List.length_map]

theorem sortCell0_wf (df : Df) (c : String) (df' : Df)
    (h : sortCell0 df c = Except.ok df') (hw : df.wf) : df'.wf := by
  obtain ⟨col, xs, vs, hc, hv, rfl⟩ := sortCell0_ok_elim df c df' h
  intro k hk
  unfold sortHead at hk ⊢
  dsimp only at hk ⊢
  obtain ⟨k0, hk0, rfl⟩ := List.mem_map.mp hk
  by_cases hname : k0.name = c
  · rw [if_pos hname]
    dsimp only
    have hcolmem : col ∈ df.cols := List.mem_of_find?_eq_some hc
    have hlen := hw col hcolmem
    rw [hv] at hlen
    simpa using hlen
  · rw [if_neg hname]
    exact hw k0 hk0

theorem sortCell0_colNames (df : Df) (c : String) (df' : Df)
    (h : sortCell0 df c = Except.ok df') : df'.colNames = df.colNames := by
  obtain ⟨col, xs, vs, -, -, rfl⟩ := sortCell0_ok_elim df c df' h
  unfold sortHead Df.colNames
  dsimp only
  rw [List.map_map]
  exact List.map_congr_left (fun k _ => sortHead_name k c xs vs)

theorem applyIgnore_wf (ig : Option (List String)) (df : Df) (hw : df.wf) :
    (applyIgnore ig df).wf := by
  unfold applyIgnore
  cases ig with
  | none => exact hw
  | some l =>
    cases l with
    | nil => exact hw
    | cons a as =>
      dsimp only
      split
      · intro c hc
        dsimp only at hc ⊢
        exact hw c (List.mem_of_mem_filter hc)
      · exact hw

theorem applyIgnore_colNames (ig : Option (List String)) (df : Df) (x : String)
    (hx : x ∈ (applyIgnore ig df).colNames) : x ∈ df.colNames := by
  unfold applyIgnore at hx
  cases ig with
  | none => exact hx
  | some l =>
    cases l with
    | nil => exact hx
    | cons a as =>
      dsimp only at hx
      split at hx
      · unfold Df.colNames at hx ⊢
        dsimp only at hx
        obtain ⟨k, hk, rfl⟩ := List.mem_map.mp hx
        exact List.mem_map_of_mem Column.name (List.mem_of_mem_filter hk)
      · exact hx

theorem preNormalize_wf_colNames (df1 df2 : Df) (p1 p2 : Df)
    (h : preNormalize df1 df2 = Except.ok (p1, p2)) (hw1 : df1.wf) (hw2 : df2.wf) :
    p1.wf ∧ p2.wf ∧ p1.colNames = df1.colNames ∧ p2.colNames = df2.colNames := by
  unfold preNormalize at h
  obtain ⟨a1, h1, h⟩ := exceptBind_ok h
  obtain ⟨a2, h2, h⟩ := exceptBind_ok h
  obtain ⟨b1, h3, h⟩ := exceptBind_ok h
  obtain ⟨b2, h4, h⟩ := exceptBind_ok h
  obtain ⟨c1, h5, h⟩ := exceptBind_ok h
  obtain ⟨c2, h6, h⟩ := exceptBind_ok h
  injection h with h
  rw [Prod.ext_iff] at h
  obtain ⟨hp1, hp2⟩ := h
  dsimp only at hp1 hp2
  subst hp1
  subst hp2
  refine ⟨sortCell0_wf _ _ _ h5 (sortCell0_wf _ _ _ h3 (sortCell0_wf _ _ _ h1 hw1)),
          sortCell0_wf _ _ _ h6 (sortCell0_wf _ _ _ h4 (sortCell0_wf _ _ _ h2 hw2)), ?_, ?_⟩
  · rw [sortCell0_colNames _ _ _ h5, sortCell0_colNames _ _ _ h3, sortCell0_colNames _ _ _ h1]
  · rw [sortCell0_colNames _ _ _ h6, sortCell0_colNames _ _ _ h4, sortCell0_colNames _ _ _ h2]

theorem afterPrep_wf_colNames (df1 df2 : Df) (igs : Option (List String)) (d1 d2 : Df)
    (h : afterPrep df1 df2 igs = Except.ok (d1, d2)) (hw1 : df1.wf) (hw2 : df2.wf) :
    d1.wf ∧ d2.wf ∧ (∀ x ∈ d1.colNames, x ∈ df1.colNames) ∧
      (∀ x ∈ d2.colNames, x ∈ df2.colNames) := by
  unfold afterPrep at h
  obtain ⟨p, hp, h2⟩ := exceptBind_ok h
  obtain ⟨p1, p2⟩ := p
  injection h2 with h2
  rw [Prod.ext_iff] at h2
  obtain ⟨hq1, hq2⟩ := h2
  dsimp only at hq1 hq2
  subst hq1
  subst hq2
  obtain ⟨hwp1, hwp2, hn1, hn2⟩ := preNormalize_wf_colNames df1 df2 p1 p2 hp hw1 hw2
  exact ⟨applyIgnore_wf igs p1 hwp1, applyIgnore_wf igs p2 hwp2,
         fun x hx => hn1 ▸ applyIgnore_colNames igs p1 x hx,
         fun x hx => hn2 ▸ applyIgnore_colNames igs p2 x hx⟩

theorem applyIndexing_wf (kcols : List String) (df : Df) (hw : df.wf) :
    (applyIndexing kcols df).wf := by
  unfold applyIndexing
  split
  · intro c hc
    dsimp only at hc ⊢
    have hc2 := List.mem_of_mem_filter hc
    unfold Df.selectRows at hc2
    dsimp only at hc2
    obtain ⟨k, -, rfl⟩ := List.mem_map.mp hc2
    simp [sortBy_length]
  · exact hw

theorem applyIndexing_colNames (kcols : List String) (df : Df) (x : String)
    (hx : x ∈ (applyIndexing kcols df).colNames) : x ∈ df.colNames := by
  unfold applyIndexing at hx
  split at hx
  · unfold Df.colNames at hx ⊢
    dsimp only at hx
    obtain ⟨k, hk, rfl⟩ := List.mem_map.mp hx
    have hk2 := List.mem_of_mem_filter hk
    unfold Df.selectRows at hk2
    dsimp only at hk2
    obtain ⟨k0, hk0, rfl⟩ := List.mem_map.mp hk2
    show k0.name ∈ List.map Column.name df.cols
    exact List.mem_map_of_mem Column.name hk0
  · exact hx

theorem dedupFirst_wf (df : Df) : (dedupFirst df).wf :=
  selectRows_wf df _

theorem dedupFirst_colNames (df : Df) : (dedupFirst df).colNames = df.colNames :=
  selectRows_colNames df _

theorem keyStage_frames (ics : Option (List String)) (d1 d2 : Df) (r : CompareResult)
    (e1 e2 : Df) (r1 : CompareResult)
    (hkey : keyStage ics d1 d2 r = (e1, e2, r1)) (hw1 : d1.wf) (hw2 : d2.wf) :
    e1.wf ∧ e2.wf ∧ (∀ x ∈ e1.colNames, x ∈ d1.colNames) ∧
      (∀ x ∈ e2.colNames, x ∈ d2.colNames) := by
  unfold keyStage at hkey
  cases ics with
  | none =>
    cases hkey
    exact ⟨hw1, hw2, fun x hx => hx, fun x hx => hx⟩
  | some l =>
    cases l with
    | nil =>
      cases hkey
      exact ⟨hw1, hw2, fun x hx => hx, fun x hx => hx⟩
    | cons kc ks =>
      dsimp only at hkey
      cases hkey
      refine ⟨?_, ?_, ?_, ?_⟩
      · split
        · exact dedupFirst_wf _
        · exact applyIndexing_wf _ _ hw1
      · split
        · exact dedupFirst_wf _
        · exact applyIndexing_wf _ _ hw2
      · split
        · intro x hx
          rw [dedupFirst_colNames] at hx
          exact applyIndexing_colNames _ _ x hx
        · exact fun x hx => applyIndexing_colNames _ _ x hx
      · split
        · intro x hx
          rw [dedupFirst_colNames] at hx
          exact applyIndexing_colNames _ _ x hx
        · exact fun x hx => applyIndexing_colNames _ _ x hx

theorem locByKeys_wf (df : Df) (ks : List (List Value)) : (df.locByKeys ks).wf :=
  selectRows_wf df _

theorem locByKeys_colNames (df : Df) (ks : List (List Value)) :
    (df.locByKeys ks).colNames = df.colNames :=
  selectRows_colNames df _

theorem locByKeys_index_length (df : Df) (ks : List (List Value)) :
    (df.locByKeys ks).index.length = ks.length := by
  unfold Df.locByKeys
  rw [selectRows_index_length, List.length_map]

/-- The continue branch of the index stage either passes the frames
through (with equal indices) or narrows both to the same common key
list. -/
theorem indexStage_inl_frames (d1 d2 : Df) (r : CompareResult) (f1 f2 : Df)
    (r2 : CompareResult) (h : indexStage d1 d2 r = Sum.inl (f1, f2, r2)) :
    (f1 = d1 ∧ f2 = d2 ∧ d1.index = d2.index) ∨
    (∃ common, f1 = d1.locByKeys common ∧ f2 = d2.locByKeys common) := by
  unfold indexStage at h
  split at h
  case _ heq =>
    injection h with h
    rw [Prod.ext_iff, Prod.ext_iff] at h
    obtain ⟨ha, hb, -⟩ := h
    exact Or.inl ⟨ha.symm, hb.symm, heq⟩
  case _ =>
    dsimp only at h
    split at h
    · cases h
    · injection h with h
      rw [Prod.ext_iff, Prod.ext_iff] at h
      obtain ⟨ha, hb, -⟩ := h
      exact Or.inr ⟨_, ha.symm, hb.symm⟩

/-- C6 (amended): every entry of `column_results` in a returned comparison
of rectangular tables is for a column present on both sides, and records
either at least one mismatching common key or a dtype difference
(equivalently: `mismatch_number >= 1` or `dtype_match = false`). -/
theorem c6_recorded_entries (df1 df2 : Df) (ics igs : Option (List String))
    (r : CompareResult) (hw1 : df1.wf) (hw2 : df2.wf)
    (hok : compare_data df1 df2 ics igs = Except.ok r) :
    ∀ p ∈ r.column_results,
      (1 ≤ p.2.mismatch_number ∨ p.2.dtype_match = false) ∧
      p.1 ∈ df1.colNames ∧ p.1 ∈ df2.colNames := by
  unfold compare_data at hok
  obtain ⟨pr, hprep, hok⟩ := exceptBind_ok hok
  obtain ⟨d1, d2⟩ := pr
  dsimp only at hok
  rcases hK : keyStage ics d1 d2 (colSetStep d1 d2 {}) with ⟨e1, e2, r1⟩
  rw [hK] at hok
  dsimp only at hok
  obtain ⟨hwd1, hwd2, hnd1, hnd2⟩ := afterPrep_wf_colNames df1 df2 igs d1 d2 hprep hw1 hw2
  obtain ⟨hwe1, hwe2, hne1, hne2⟩ := keyStage_frames ics d1 d2 _ e1 e2 r1 hK hwd1 hwd2
  have hr1cr : r1.column_results = [] := by
    have hkf := keyStage_fields ics d1 d2 (colSetStep d1 d2 {})
    rw [hK] at hkf
    rw [hkf.2.1, (colSetStep_fields d1 d2 {}).2.1]
  unfold compareTail at hok
  dsimp only at hok
  cases hix : indexStage e1 e2
      { r1 with left_index_count := e1.nrows, right_index_count := e2.nrows } with
  | inr rd =>
    rw [hix] at hok
    dsimp only at hok
    injection hok with hok
    subst hok
    have hpres := indexStage_pres_inr _ _ _ _ hix
    intro p hp
    rw [hpres.2.2.2.2.2.1] at hp
    dsimp only at hp
    rw [hr1cr] at hp
    cases hp
  | inl t =>
    obtain ⟨f1, f2, rn⟩ := t
    rw [hix] at hok
    dsimp only at hok
    have hrncr : rn.column_results = [] := by
      have hpres := indexStage_pres_inl _ _ _ _ _ _ hix
      rw [hpres.2.2.2.2.2.1]
      dsimp only
      exact hr1cr
    have hframes := indexStage_inl_frames _ _ _ _ _ _ hix
    have hwf1 : f1.wf ∧ f2.wf ∧ f1.index.length = f2.index.length ∧
        (∀ x ∈ f1.colNames, x ∈ e1.colNames) ∧ (∀ x ∈ f2.colNames, x ∈ e2.colNames) := by
      rcases hframes with ⟨rfl, rfl, heq⟩ | ⟨common, rfl, rfl⟩
      · exact ⟨hwe1, hwe2, by rw [heq], fun x hx => hx, fun x hx => hx⟩
      · refine ⟨locByKeys_wf _ _, locByKeys_wf _ _, ?_, ?_, ?_⟩
        · rw [locByKeys_index_length, locByKeys_index_length]
        · rw [locByKeys_colNames]; exact fun x hx => hx
        · rw [locByKeys_colNames]; exact fun x hx => hx
    obtain ⟨hwf1', hwf2', hlenf, hsn1, hsn2⟩ := hwf1
    intro p hp
    rcases columnStage_entries f1 f2 rn r hok hwf1' hwf2' hlenf p hp with hgood | hold
    · obtain ⟨hprop, hm1, hm2⟩ := hgood
      exact ⟨hprop, hnd1 _ (hne1 _ (hsn1 _ hm1)), hnd2 _ (hne2 _ (hsn2 _ hm2))⟩
    · rw [hrncr] at hold
      cases hold

/-- Left side of a plain string-column mismatch. -/
def strMismatchLeft : Df :=
  Df.ofCols ([⟨"id", Dtype.int, [Value.intV 1, Value.intV 2]⟩,
              ⟨"val", Dtype.str, [Value.strV "a", Value.strV "b"]⟩] ++ pcColsN 2)

/-- Right side of a plain string-column mismatch: one differing value. -/
def strMismatchRight : Df :=
  Df.ofCols ([⟨"id", Dtype.int, [Value.intV 1, Value.intV 2]⟩,
              ⟨"val", Dtype.str, [Value.strV "a", Value.strV "c"]⟩] ++ pcColsN 2)

/-- C6 (witness): the amended invariant at a concrete comparison that
records one genuine mismatch entry. -/
theorem c6_recorded_entries_witness :
    strMismatchLeft.wf ∧ strMismatchRight.wf ∧
    (∀ p ∈ (okOr (compare_data strMismatchLeft strMismatchRight (some ["id"]) none)).column_results,
      (1 ≤ p.2.mismatch_number ∨ p.2.dtype_match = false) ∧
      p.1 ∈ strMismatchLeft.colNames ∧ p.1 ∈ strMismatchRight.colNames) :=
  ⟨by decide, by decide,
   c6_recorded_entries strMismatchLeft strMismatchRight (some ["id"]) none
     (okOr (compare_data strMismatchLeft strMismatchRight (some ["id"]) none))
     (by decide) (by decide) rfl⟩

/-- C1: on the spec's concrete scenario (left `{id:1,val:10},{id:2,val:20}`,
right `{id:1,val:10},{id:2,val:99},{id:3,val:5}`, key `id`) `compare_data`
does not return a `CompareResult` at all: the tables lack the hard-coded
pcodes columns, so the pre-normalization raises AttributeError; and even
with those columns supplied, the numeric branch assigns the length-2
`np.where` array to the 1-row mismatch table, which raises ValueError. -/
theorem c1_scenario_raises :
    compare_data scenarioLeft scenarioRight (some ["id"]) none
      = Except.error (Err.attrError "pcodes_power_poles") ∧
    compare_data scenarioLeftAug scenarioRightAug (some ["id"]) none
      = Except.error Err.valueError := by
  constructor <;> decide

/-- C2: the gate for the relative-mismatch column is
`dtype1 == int or (dtype1 == float and dtype1 == dtype2)`, not the
intended "both numeric and same dtype": it fires for an int-left /
float-right column, and on such a column with a partial mismatch the
full-length `np.where` array cannot be assigned to the shorter mismatch
table, so the comparison raises ValueError instead of returning. -/
theorem c2_numeric_gate_diverges :
    numericCond Dtype.int Dtype.float = true ∧
    specNumericCond Dtype.int Dtype.float = false ∧
    compare_data mixedIntLeft mixedFloatRight (some ["id"]) none
      = Except.error Err.valueError := by
  refine ⟨by decide, by decide, by decide⟩

/-- C3: `series_nonequal_index` raises (ValueError from
`np.vectorize` on size-0 input) whenever no key is non-null on both
sides — here a single key that is null on the left and `1` on the right —
instead of returning the defined mismatch set `{0}`; when the non-null
set is nonempty the structural array fallback does give defined verdicts
(equal arrays built independently match, reordered arrays mismatch). -/
theorem c3_comparator_empty_nonnull_raises :
    series_nonequal_index [[Value.intV 0]] [Value.null] [Value.intV 1]
      = Except.error Err.valueError ∧
    series_nonequal_index [[Value.intV 0], [Value.intV 1]]
        [Value.arrV [Value.intV 1, Value.intV 2], Value.arrV [Value.intV 1, Value.intV 2]]
        [Value.arrV [Value.intV 1, Value.intV 2], Value.arrV [Value.intV 2, Value.intV 1]]
      = Except.ok [[Value.intV 1]] := by
  constructor <;> decide

/-- C5 (counterexample): with two-row tables whose second-row
`pcodes_power_poles` cells hold the same strings in different orders, the
pre-normalization leaves those cells untouched (only row label 0 is
sorted) and the order difference registers as a mismatch of one key —
refuting "every cell's embedded array is sorted, so order differences
never register". -/
theorem c5_row1_order_difference_registers :
    (compare_data orderLeft orderRight (some ["id"]) none).map
        (fun r => r.column_results.map (fun p => (p.1, p.2.mismatch_number)))
      = Except.ok [("pcodes_power_poles", 1)] := by
  decide

/-- C6 (counterexample): a common column declared float on the left and
int on the right with numerically equal values is not `Series.equals`-equal
(dtypes differ), so a `ColumnResult` is recorded even though no common key
has differing values: its `mismatch_number` is 0 — refuting "every
recorded ColumnResult has mismatch_number >= 1". -/
theorem c6_zero_mismatch_entry :
    (compare_data eqFloatLeft eqIntRight (some ["id"]) none).map
        (fun r => r.column_results.map (fun p => (p.1, p.2.mismatch_number, p.2.dtype_match)))
      = Except.ok [("val", 0, false)] := by
  decide

/-- C9 (counterexample): with `ignore_cols = ["debug"]` and `debug`
present on the left side only, the per-side subset check passes for the
left table, whose `debug` column IS dropped — refuting "no column is
dropped from either side". -/
theorem c9_left_debug_dropped :
    (applyIgnore (some ["debug"]) debugLeft).colNames = ["id"] ∧
    debugLeft.colNames = ["id", "debug"] := by
  constructor <;> decide

/-- C9 (amended): when only the left table has the ignored column, the
drop happens on the left side exactly (its `debug` column is removed) and
the right side is returned unchanged. -/
theorem c9_ignore_drop_is_per_side :
    applyIgnore (some ["debug"]) debugLeft
      = { debugLeft with cols := [⟨"id", Dtype.int, [Value.intV 1]⟩] } ∧
    applyIgnore (some ["debug"]) debugRight = debugRight := by
  constructor <;> decide

/-- C4 (counterexample): on a table without the hard-coded pcodes columns
(here the empty table) `compare_data(T, T)` raises AttributeError instead
of returning a match — refuting the unconditional "for all tables T". -/
theorem c4_identity_raises_without_pcodes :
    compare_data emptyTable emptyTable none none
      = Except.error (Err.attrError "pcodes_power_poles") := by
  decide

end PCT
